import Mathlib

/-!
Verification of the xylitol4 SIP proxy against its natural-language
specification.  The Go sources are shallowly embedded: every definition below
mirrors a function of the repository (package `sip`, `sip/userdb`, or the
proxy core), with Go strings modelled as Lean `String`, Go `int` as `Int`,
Go `time.Time` as `Nat` ticks (`Option Nat` for possibly-zero times) and the
random branch generator threaded explicitly.
-/

set_option maxRecDepth 4000

/-! ### Go standard-library string primitives used by the sources -/

/-- Go `unicode.IsSpace` restricted to the code points the proxy ever sees
(Latin-1 range, as in Go's `isSpace` fast path). -/
def goIsSpace (c : Char) : Bool :=
  c == ' ' || c == '\t' || c == '\n' || c == Char.ofNat 11 || c == Char.ofNat 12 ||
  c == '\r' || c == Char.ofNat 0x85 || c == Char.ofNat 0xA0

/-- Go `strings.TrimSpace`. -/
def goTrimSpace (s : String) : String :=
  ((s.data.dropWhile goIsSpace).reverse.dropWhile goIsSpace).reverse.asString

/-- Go `strings.Trim` with an explicit cut set. -/
def goTrim (s : String) (cutset : List Char) : String :=
  ((s.data.dropWhile (cutset.contains ·)).reverse.dropWhile
    (cutset.contains ·)).reverse.asString

/-- Go `strings.ToLower` (ASCII part, which is all the proxy relies on). -/
def goToLower (s : String) : String :=
  (s.data.map Char.toLower).asString

/-- Go `strings.ToUpper` (ASCII part). -/
def goToUpper (s : String) : String :=
  (s.data.map Char.toUpper).asString

/-- Go `strings.EqualFold` (ASCII simple folding). -/
def goEqualFold (a b : String) : Bool :=
  goToLower a == goToLower b

/-- Go `strings.HasPrefix`. -/
def goStartsWith (s pre : String) : Bool :=
  s.data.take pre.data.length == pre.data

/-- Splitting a character list at every occurrence of a separator char. -/
def splitCharList (c : Char) : List Char → List (List Char)
  | [] => [[]]
  | x :: xs =>
    match splitCharList c xs with
    | [] => [[]]
    | r :: rs => if x = c then [] :: r :: rs else (x :: r) :: rs

/-- Go `strings.Split` with a one-character separator. -/
def goSplit (s : String) (c : Char) : List String :=
  (splitCharList c s.data).map List.asString

/-- Go `strings.SplitN(s, sep, 2)` with a one-character separator. -/
def goSplitN2 (s : String) (c : Char) : List String :=
  match splitCharList c s.data with
  | [] => [s]
  | [only] => [only.asString]
  | first :: rest =>
      [first.asString, (String.intercalate (String.mk [c]) (rest.map List.asString))]

/-- Go `strings.Fields`: runs of non-space characters. -/
def goFieldsAux : List Char → List (List Char)
  | [] => []
  | c :: cs =>
    let rest := goFieldsAux cs
    if goIsSpace c then rest
    else
      match cs with
      | [] => [[c]]
      | c₂ :: _ =>
        if goIsSpace c₂ then [c] :: rest
        else
          match rest with
          | [] => [[c]]
          | w :: ws => (c :: w) :: ws

/-- Go `strings.Fields`. -/
def goFields (s : String) : List String :=
  (goFieldsAux s.data).map List.asString

/-- Index of the first occurrence of a character, Go `strings.Index` with a
one-character needle (`none` for Go's `-1`). -/
def goIndexChar (s : String) (c : Char) : Option Nat :=
  s.data.findIdx? (· = c)

/-- Go `strings.LastIndex` with a one-character needle. -/
def goLastIndexChar (s : String) (c : Char) : Option Nat :=
  match (s.data.reverse.findIdx? (· = c)) with
  | none => none
  | some i => some (s.data.length - 1 - i)

/-- Go `strings.Contains` with a one-character needle. -/
def goContainsChar (s : String) (c : Char) : Bool :=
  s.data.contains c

/-- Substring containment test used for `strings.Contains(lower, ";tag=")`. -/
def goContainsSub (s sub : String) : Bool :=
  (List.range (s.data.length + 1)).any fun i =>
    (s.data.drop i).take sub.data.length == sub.data

/-- Character-indexed slice `s[i:]` (all the sources index ASCII strings). -/
def goDrop (s : String) (i : Nat) : String :=
  (s.data.drop i).asString

/-- Character-indexed slice `s[:i]`. -/
def goTake (s : String) (i : Nat) : String :=
  (s.data.take i).asString

def digitVal (c : Char) : Nat := c.toNat - '0'.toNat

def decimalValue (ds : List Char) : Nat :=
  ds.foldl (fun acc c => acc * 10 + digitVal c) 0

/-- Go `strconv.Atoi`: optional sign, decimal digits, 64-bit range check. -/
def goAtoi (s : String) : Option Int :=
  let (sign, ds) :=
    match s.data with
    | '-' :: rest => ((-1 : Int), rest)
    | '+' :: rest => ((1 : Int), rest)
    | rest => ((1 : Int), rest)
  if ds = [] then none
  else if ds.all Char.isDigit then
    let v : Int := sign * Int.ofNat (decimalValue ds)
    if -(2 ^ 63) ≤ v ∧ v < 2 ^ 63 then some v else none
  else none

/-- Go `strconv.Itoa`. -/
def goItoa (i : Int) : String := toString i

/-! ### The `Message` type (sip/message.go) -/

/-- `sip.Message`: requests and responses with a canonicalised multi-valued
header table. The Go header map is modelled as an association list with
canonical keys; all access goes through the operations below, exactly as in
the source. -/
structure Message where
  isRequest : Bool := false
  Method : String := ""
  RequestURI : String := ""
  Proto : String := "SIP/2.0"
  StatusCode : Int := 0
  ReasonPhrase : String := ""
  Headers : List (String × List String) := []
  Body : String := ""
deriving Repr, DecidableEq

/-- Byte-level token characters accepted by Go's
`textproto.CanonicalMIMEHeaderKey` (`validHeaderFieldByte`). -/
def isHeaderTokenChar (c : Char) : Bool :=
  c.isAlphanum ||
  ['!', '#', '$', '%', '&', Char.ofNat 39, '*', '+', '-', '.',
   Char.ofNat 94, '_', Char.ofNat 96, '|', Char.ofNat 126].contains c

def canonChars : Bool → List Char → List Char
  | _, [] => []
  | upper, c :: cs =>
    (if upper then c.toUpper else c.toLower) :: canonChars (c = '-') cs

/-- Go `textproto.CanonicalMIMEHeaderKey` (via `sip.canonicalHeader`). -/
def canonicalHeader (s : String) : String :=
  if s.data.all isHeaderTokenChar then (canonChars true s.data).asString else s

def hdrFind (hs : List (String × List String)) (k : String) : Option (List String) :=
  match hs.find? (fun p => p.1 == k) with
  | some p => some p.2
  | none => none

def hdrSet (hs : List (String × List String)) (k : String) (vs : List String) :
    List (String × List String) :=
  if hs.any (fun p => p.1 == k) then
    hs.map (fun p => if p.1 == k then (k, vs) else p)
  else hs ++ [(k, vs)]

def hdrDel (hs : List (String × List String)) (k : String) :
    List (String × List String) :=
  hs.filter (fun p => ¬ p.1 == k)

/-- `Message.SetHeader`. -/
def Message.SetHeader (m : Message) (name : String) (values : List String) : Message :=
  { m with Headers := hdrSet m.Headers (canonicalHeader name) values }

/-- `Message.AddHeader`. -/
def Message.AddHeader (m : Message) (name value : String) : Message :=
  let k := canonicalHeader name
  { m with Headers :=
      match hdrFind m.Headers k with
      | some vs => hdrSet m.Headers k (vs ++ [value])
      | none => m.Headers ++ [(k, [value])] }

/-- `Message.DelHeader`. -/
def Message.DelHeader (m : Message) (name : String) : Message :=
  { m with Headers := hdrDel m.Headers (canonicalHeader name) }

/-- `Message.HeaderValues`. -/
def Message.HeaderValues (m : Message) (name : String) : List String :=
  (hdrFind m.Headers (canonicalHeader name)).getD []

/-- `Message.GetHeader`. -/
def Message.GetHeader (m : Message) (name : String) : String :=
  (m.HeaderValues name).headD ""

/-- `Message.EnsureContentLength` (`len` counts bytes). -/
def Message.EnsureContentLength (m : Message) : Message :=
  m.SetHeader "Content-Length" [goItoa (Int.ofNat m.Body.utf8ByteSize)]

/-- `sip.defaultReason`. -/
def defaultReason (code : Int) : String :=
  if code = 100 then "Trying"
  else if code = 180 then "Ringing"
  else if code = 200 then "OK"
  else if code = 400 then "Bad Request"
  else if code = 403 then "Forbidden"
  else if code = 404 then "Not Found"
  else if code = 405 then "Method Not Allowed"
  else if code = 408 then "Request Timeout"
  else if code = 481 then "Call/Transaction Does Not Exist"
  else if code = 486 then "Busy Here"
  else if code = 500 then "Server Internal Error"
  else if code = 501 then "Not Implemented"
  else "Status " ++ goItoa code

/-- `sip.NewResponse`. -/
def NewResponse (statusCode : Int) (reason : String) : Message :=
  { isRequest := false
    Proto := "SIP/2.0"
    StatusCode := statusCode
    ReasonPhrase := if reason = "" then defaultReason statusCode else reason
    Headers := [] }

/-- `sip.NewRequest`. -/
def NewRequest (method uri : String) : Message :=
  { isRequest := true
    Method := goToUpper method
    RequestURI := uri
    Proto := "SIP/2.0"
    Headers := [] }

/-- `sip.CopyHeaders`. -/
def CopyHeaders (dst src : Message) (names : List String) : Message :=
  names.foldl
    (fun d n =>
      let values := src.HeaderValues n
      if values = [] then d else d.SetHeader n values)
    dst

/-- `sip.GetHeaderParam`: extract `name=value` from a `;`-separated header. -/
def GetHeaderParam (headerValue param : String) : String :=
  if headerValue = "" then ""
  else
    let p := goToLower param
    ((goSplit headerValue ';').findSome? fun segment =>
      let seg := goTrimSpace segment
      if seg = "" then none
      else if goStartsWith (goToLower seg) (p ++ "=") then
        some (goTrim (goTrimSpace (goDrop seg (p.length + 1))) ['"'])
      else none).getD ""

/-- `sip.replaceHeaderParam`. -/
def replaceHeaderParam (headerValue param newValue : String) : String :=
  let paramLower := goToLower param
  let segments := goSplit headerValue ';'
  let found := segments.any fun segment =>
    let trimmed := goTrimSpace segment
    (!(trimmed == "")) && goStartsWith (goToLower trimmed) (paramLower ++ "=")
  let replaced := segments.map fun segment =>
    let trimmed := goTrimSpace segment
    if (!(trimmed == "")) && goStartsWith (goToLower trimmed) (paramLower ++ "=") then
      match goIndexChar segment '=' with
      | some idx => goTrimSpace (goTake segment (idx + 1)) ++ newValue
      | none => newValue
    else segment
  let segments₂ := if found then replaced else segments ++ [param ++ "=" ++ newValue]
  let cleaned := (segments₂.map goTrimSpace).filter (fun s => s ≠ "")
  String.intercalate ";" cleaned

/-! ### Transaction-key and Via helpers (sip/transaction.go, proxy core) -/

/-- `sip.viaBranch`: the `branch` parameter of one Via value. -/
def viaBranch (value : String) : String :=
  (((goSplit value ';').drop 1).findSome? fun segment =>
    match goSplitN2 (goTrimSpace segment) '=' with
    | [k, v] =>
        if goEqualFold (goTrimSpace k) "branch" then
          some (goTrim (goTrimSpace v) ['"'])
        else none
    | _ => none).getD ""

/-- `sip.topViaBranch`. -/
def topViaBranch (m : Message) : String :=
  match m.HeaderValues "Via" with
  | [] => ""
  | v :: _ => viaBranch v

/-- `sip.cseqMethod`. -/
def cseqMethod (m : Message) : String :=
  let cseq := goTrimSpace (m.GetHeader "CSeq")
  if cseq = "" then ""
  else
    match goFields cseq with
    | _ :: meth :: _ => goToUpper meth
    | _ => ""

/-- `sip.transactionKey`. -/
def transactionKey (branch method : String) : String :=
  goToUpper method ++ "|" ++ branch

/-- `sip.keyBranch`. -/
def keyBranch (key : String) : String :=
  match goSplitN2 key '|' with
  | [_, b] => b
  | _ => ""

/-- `sip.parseCSeqNumber`. -/
def parseCSeqNumber (value : String) : Option Int :=
  match goFields (goTrimSpace value) with
  | [] => none
  | n :: _ => goAtoi n

/-- `sip.formatCSeq`. -/
def formatCSeq (number : Int) (method : String) : String :=
  let n := if number ≤ 0 then (1 : Int) else number
  goItoa n ++ " " ++ goToUpper method

/-- The Via value the proxy inserts (`prependVia`'s format string). -/
def proxyViaValue (branch : String) : String :=
  "SIP/2.0/UDP proxy.local;branch=" ++ branch

/-- `sip.prependVia`. -/
def prependVia (m : Message) (branch : String) : Message :=
  m.SetHeader "Via" (proxyViaValue branch :: m.HeaderValues "Via")

/-- The loop body of `removeTopViaWithBranch`: drop the first Via value whose
branch parameter folds equal to the target. -/
def dropFirstViaWithBranch (branch : String) : List String → List String
  | [] => []
  | v :: vs =>
      if goEqualFold (viaBranch v) branch then vs
      else v :: dropFirstViaWithBranch branch vs

/-- `sip.removeTopViaWithBranch`. -/
def removeTopViaWithBranch (m : Message) (branch : String) : Message :=
  if branch = "" then m
  else
    match m.HeaderValues "Via" with
    | [] => m
    | values =>
        let filtered := dropFirstViaWithBranch branch values
        if filtered = [] then m.DelHeader "Via" else m.SetHeader "Via" filtered

/-- `sip.decrementMaxForwards`. -/
def decrementMaxForwards (m : Message) : Message :=
  let raw := goTrimSpace (m.GetHeader "Max-Forwards")
  if raw = "" then m
  else
    match goAtoi raw with
    | none => m
    | some value =>
        let value := if value > 0 then value - 1 else value
        m.SetHeader "Max-Forwards" [goItoa value]

/-! ### MD5 (crypto/md5 as used by the registrar), over byte lists -/

/-- UTF-8 encoding of one character (Go strings are UTF-8 byte slices). -/
def utf8Bytes (c : Char) : List Nat :=
  let n := c.toNat
  if n < 0x80 then [n]
  else if n < 0x800 then [0xC0 + n / 64, 0x80 + n % 64]
  else if n < 0x10000 then [0xE0 + n / 4096, 0x80 + (n / 64) % 64, 0x80 + n % 64]
  else [0xF0 + n / 262144, 0x80 + (n / 4096) % 64, 0x80 + (n / 64) % 64, 0x80 + n % 64]

/-- The bytes of a Go string. -/
def strBytes (s : String) : List Nat :=
  (s.data.map utf8Bytes).flatten

def md5K : List Nat :=
  [0xd76aa478, 0xe8c7b756, 0x242070db, 0xc1bdceee,
   0xf57c0faf, 0x4787c62a, 0xa8304613, 0xfd469501,
   0x698098d8, 0x8b44f7af, 0xffff5bb1, 0x895cd7be,
   0x6b901122, 0xfd987193, 0xa679438e, 0x49b40821,
   0xf61e2562, 0xc040b340, 0x265e5a51, 0xe9b6c7aa,
   0xd62f105d, 0x02441453, 0xd8a1e681, 0xe7d3fbc8,
   0x21e1cde6, 0xc33707d6, 0xf4d50d87, 0x455a14ed,
   0xa9e3e905, 0xfcefa3f8, 0x676f02d9, 0x8d2a4c8a,
   0xfffa3942, 0x8771f681, 0x6d9d6122, 0xfde5380c,
   0xa4beea44, 0x4bdecfa9, 0xf6bb4b60, 0xbebfbc70,
   0x289b7ec6, 0xeaa127fa, 0xd4ef3085, 0x04881d05,
   0xd9d4d039, 0xe6db99e5, 0x1fa27cf8, 0xc4ac5665,
   0xf4292244, 0x432aff97, 0xab9423a7, 0xfc93a039,
   0x655b59c3, 0x8f0ccc92, 0xffeff47d, 0x85845dd1,
   0x6fa87e4f, 0xfe2ce6e0, 0xa3014314, 0x4e0811a1,
   0xf7537e82, 0xbd3af235, 0x2ad7d2bb, 0xeb86d391]

def md5S : List Nat :=
  [7, 12, 17, 22, 7, 12, 17, 22, 7, 12, 17, 22, 7, 12, 17, 22,
   5, 9, 14, 20, 5, 9, 14, 20, 5, 9, 14, 20, 5, 9, 14, 20,
   4, 11, 16, 23, 4, 11, 16, 23, 4, 11, 16, 23, 4, 11, 16, 23,
   6, 10, 15, 21, 6, 10, 15, 21, 6, 10, 15, 21, 6, 10, 15, 21]

def mask32 : Nat := 0xffffffff

def rotl32 (x n : Nat) : Nat :=
  Nat.lor ((x <<< n) % 2 ^ 32) (x >>> (32 - n))

def md5Mix (i b c d : Nat) : Nat :=
  if i < 16 then Nat.lor (Nat.land b c) (Nat.land (Nat.xor b mask32) d)
  else if i < 32 then Nat.lor (Nat.land d b) (Nat.land (Nat.xor d mask32) c)
  else if i < 48 then Nat.xor (Nat.xor b c) d
  else Nat.xor c (Nat.lor b (Nat.xor d mask32))

def md5MsgIndex (i : Nat) : Nat :=
  if i < 16 then i
  else if i < 32 then (5 * i + 1) % 16
  else if i < 48 then (3 * i + 5) % 16
  else (7 * i) % 16

def md5Round (m : List Nat) (st : Nat × Nat × Nat × Nat) (i : Nat) :
    Nat × Nat × Nat × Nat :=
  let (a, b, c, d) := st
  let f := (md5Mix i b c d + a + md5K.getD i 0 + m.getD (md5MsgIndex i) 0) % 2 ^ 32
  (d, (b + rotl32 f (md5S.getD i 0)) % 2 ^ 32, b, c)

def md5Chunk (h : Nat × Nat × Nat × Nat) (m : List Nat) : Nat × Nat × Nat × Nat :=
  let (a₀, b₀, c₀, d₀) := h
  let (a, b, c, d) := (List.range 64).foldl (md5Round m) h
  ((a₀ + a) % 2 ^ 32, (b₀ + b) % 2 ^ 32, (c₀ + c) % 2 ^ 32, (d₀ + d) % 2 ^ 32)

def chunkListAux (n : Nat) : Nat → List α → List (List α)
  | 0, _ => []
  | _, [] => []
  | fuel + 1, l => l.take n :: chunkListAux n fuel (l.drop n)

def chunkList (n : Nat) (l : List α) : List (List α) :=
  chunkListAux n l.length l

def le64Bytes (n : Nat) : List Nat :=
  (List.range 8).map fun i => (n >>> (8 * i)) % 256

def le32Bytes (n : Nat) : List Nat :=
  (List.range 4).map fun i => (n >>> (8 * i)) % 256

def wordLE (bs : List Nat) : Nat :=
  bs.getD 0 0 + bs.getD 1 0 * 256 + bs.getD 2 0 * 65536 + bs.getD 3 0 * 16777216

def md5Pad (msg : List Nat) : List Nat :=
  let len := msg.length
  let zeros := (120 - (len + 1) % 64) % 64
  msg ++ [0x80] ++ List.replicate zeros 0 ++ le64Bytes ((8 * len) % 2 ^ 64)

/-- MD5 digest of a byte list, as 16 bytes. -/
def md5Bytes (msg : List Nat) : List Nat :=
  let blocks := chunkList 64 (md5Pad msg)
  let (a, b, c, d) :=
    blocks.foldl (fun h block => md5Chunk h ((chunkList 4 block).map wordLE))
      (0x67452301, 0xefcdab89, 0x98badcfe, 0x10325476)
  le32Bytes a ++ le32Bytes b ++ le32Bytes c ++ le32Bytes d

def hexDigitChar (n : Nat) : Char :=
  if n < 10 then Char.ofNat ('0'.toNat + n) else Char.ofNat ('a'.toNat + n - 10)

/-- `hex.EncodeToString`. -/
def bytesToHex (bs : List Nat) : String :=
  ((bs.map fun b => [hexDigitChar (b / 16), hexDigitChar (b % 16)]).flatten).asString

/-- `sip.md5Hex`. -/
def md5Hex (input : String) : String :=
  bytesToHex (md5Bytes (strBytes input))

/-! ### User directory (sip/userdb) and registrar (proxy core) -/

/-- `userdb.User`. -/
structure User where
  Username : String := ""
  Domain : String := ""
  PasswordHash : String := ""
  ContactURI : String := ""
deriving Repr, DecidableEq

def isHexChar (r : Char) : Bool :=
  decide (('0' ≤ r ∧ r ≤ '9') ∨ ('a' ≤ r ∧ r ≤ 'f') ∨ ('A' ≤ r ∧ r ≤ 'F'))

/-- `sip.isHex` / `userdb.isHex`. -/
def isHex (value : String) : Bool :=
  value.data.all isHexChar

/-- `userdb.HashPassword`. -/
def HashPassword (username realm password : String) : String :=
  md5Hex (username ++ ":" ++ realm ++ ":" ++ password)

/-- `userdb.ComputeHA1`: a stored 32-char hex digest is used verbatim
(lowercased), anything else is hashed as `user:realm:password`. -/
def ComputeHA1 (username realm stored : String) : String :=
  let stored := goTrimSpace stored
  if stored = "" then ""
  else if stored.length = 32 ∧ isHex stored then goToLower stored
  else HashPassword username realm stored

/-- Digest authorization parameters (`map[string]string`). -/
abbrev AuthParams := List (String × String)

def pget (ps : AuthParams) (k : String) : String :=
  match List.find? (fun p => p.1 == k) ps with
  | some p => p.2
  | none => ""

def pset (ps : AuthParams) (k v : String) : AuthParams :=
  if List.any ps (fun p => p.1 == k) then
    List.map (fun p => if p.1 == k then (k, v) else p) ps
  else List.append ps [(k, v)]

/-- `sip.splitAuthParams`: split on commas outside double quotes. -/
def splitAuthParamsAux : List Char → Bool → List Char → List (List Char)
  | [], _, buf => if buf.isEmpty then [] else [buf.reverse]
  | r :: rest, inQ, buf =>
    if r = '"' then splitAuthParamsAux rest (!inQ) (r :: buf)
    else if r = ',' then
      if inQ then splitAuthParamsAux rest inQ (r :: buf)
      else buf.reverse :: splitAuthParamsAux rest inQ []
    else splitAuthParamsAux rest inQ (r :: buf)

def splitAuthParams (input : String) : List String :=
  (splitAuthParamsAux input.data false []).map List.asString

/-- `sip.parseDigestAuthorization`. -/
def parseDigestAuthorization (header : String) : Option AuthParams :=
  let header := goTrimSpace header
  if header = "" then none
  else if ¬ goStartsWith (goToLower header) "digest " then none
  else
    let params := goDrop header 7
    let values := (splitAuthParams params).foldl
      (fun (acc : AuthParams) segment =>
        let segment := goTrimSpace segment
        if segment = "" then acc
        else
          match goSplitN2 segment '=' with
          | [k, v] =>
              pset acc (goToLower (goTrimSpace k)) (goTrim (goTrimSpace v) ['"'])
          | _ => acc)
      []
    if values = [] then none else some values

/-- `sip.verifyDigest` (errors carry the source's messages). -/
def verifyDigest (params : AuthParams) (req : Message) (user : User)
    (realm : String) : Except String Unit :=
  let algorithm := pget params "algorithm"
  if algorithm ≠ "" ∧ ¬ goEqualFold algorithm "md5" then
    .error "unsupported algorithm"
  else
    let nonce := pget params "nonce"
    let response := pget params "response"
    if nonce = "" ∨ response = "" then .error "missing nonce or response"
    else
      let uri := if pget params "uri" = "" then req.RequestURI else pget params "uri"
      let ha1 := ComputeHA1 user.Username realm user.PasswordHash
      if ha1 = "" then .error "missing credentials"
      else
        let ha2 := md5Hex (goToUpper req.Method ++ ":" ++ uri)
        let qop := goToLower (pget params "qop")
        if qop = "" then
          if goEqualFold (md5Hex (ha1 ++ ":" ++ nonce ++ ":" ++ ha2)) response then
            .ok ()
          else .error "digest mismatch"
        else if qop = "auth" then
          let nc := pget params "nc"
          let cnonce := pget params "cnonce"
          if nc = "" ∨ cnonce = "" then .error "missing nonce counters"
          else if goEqualFold
              (md5Hex (ha1 ++ ":" ++ nonce ++ ":" ++ nc ++ ":" ++ cnonce ++ ":" ++
                qop ++ ":" ++ ha2)) response then
            .ok ()
          else .error "digest mismatch"
        else .error "unsupported qop"

/-- `sip.registrationBinding` (absolute expiry as integer seconds). -/
structure RegistrationBinding where
  contact : String
  expires : Int
deriving Repr, DecidableEq

/-- The registrar binding table, `map[string][]registrationBinding`. -/
abbrev RegBindings := List (String × List RegistrationBinding)

def regGet (st : RegBindings) (k : String) : List RegistrationBinding :=
  match List.find? (fun p => p.1 == k) st with
  | some p => p.2
  | none => []

def regSet (st : RegBindings) (k : String) (v : List RegistrationBinding) :
    RegBindings :=
  if List.any st (fun p => p.1 == k) then
    List.map (fun p => if p.1 == k then (k, v) else p) st
  else List.append st [(k, v)]

def regDel (st : RegBindings) (k : String) : RegBindings :=
  List.filter (fun p => ¬ p.1 == k) st

/-- `sip.registrarKey`. -/
def registrarKey (username domain : String) : String :=
  goToLower (goTrimSpace username) ++ "@" ++ goToLower (goTrimSpace domain)

/-- `sip.parseExpires`: `-1` for absent/malformed, negatives clamped to 0. -/
def parseExpires (raw : String) : Int :=
  let raw := goTrimSpace raw
  if raw = "" then -1
  else
    match goAtoi raw with
    | none => -1
    | some value => if value < 0 then 0 else value

/-- `sip.splitContactList`: split on commas outside quotes and angle brackets. -/
def splitContactListAux : List Char → Bool → Nat → List Char → List (List Char)
  | [], _, _, buf => if buf.isEmpty then [] else [buf.reverse]
  | r :: rest, inQ, depth, buf =>
    if r = '"' then splitContactListAux rest (!inQ) depth (r :: buf)
    else if r = '<' then
      splitContactListAux rest inQ (if inQ then depth else depth + 1) (r :: buf)
    else if r = '>' then
      splitContactListAux rest inQ
        (if ¬ inQ ∧ depth > 0 then depth - 1 else depth) (r :: buf)
    else if r = ',' then
      if inQ ∨ depth > 0 then splitContactListAux rest inQ depth (r :: buf)
      else buf.reverse :: splitContactListAux rest inQ depth []
    else splitContactListAux rest inQ depth (r :: buf)

def splitContactList (value : String) : List String :=
  (splitContactListAux value.data false 0 []).map List.asString

/-- `sip.expandContactValues`. -/
def expandContactValues (values : List String) : List String :=
  (values.map fun value =>
    (splitContactList value).filterMap fun part =>
      let trimmed := goTrimSpace part
      if trimmed = "" then none else some trimmed).flatten

/-- `sip.contactAddress`. -/
def contactAddress (value : String) : String :=
  let value := goTrimSpace value
  if value = "" then ""
  else goTrimSpace ((goSplitN2 value ';').headD "")

/-- `sip.contactKey`. -/
def contactKey (value : String) : String :=
  goToLower (contactAddress value)

/-- `sip.removeBindingByAddress`. -/
def removeBindingByAddress (bindings : List RegistrationBinding)
    (address : String) : List RegistrationBinding :=
  let key := contactKey address
  if key = "" then bindings
  else bindings.filter fun binding => ¬ contactKey binding.contact == key

/-- `sip.normalizeContact`. -/
def normalizeContact (value : String) (expires : Int) : String :=
  let value := goTrimSpace value
  if value = "" then ""
  else
    let segments := goSplit value ';'
    let base := goTrimSpace (segments.headD "")
    let params := (segments.drop 1).filterMap fun segment =>
      let trimmed := goTrimSpace segment
      if trimmed = "" then none
      else if goStartsWith (goToLower trimmed) "expires=" then none
      else some trimmed
    String.intercalate ";" (base :: (params ++ ["expires=" ++ goItoa expires]))

/-- `sip.withContactExpires`. -/
def withContactExpires (value : String) (expires : Int) : String :=
  normalizeContact value (if expires < 0 then 0 else expires)

/-- `sip.registrarError`. -/
structure RegistrarError where
  status : Int
  reason : String
deriving Repr, DecidableEq

/-- The per-contact loop of `Registrar.applyRegistration`. -/
def applyContacts (now defaultExpires : Int) :
    List String → List RegistrationBinding →
    Except RegistrarError (List RegistrationBinding)
  | [], result => .ok result
  | raw :: rest, result =>
    let address := contactAddress raw
    if address = "" then .error { status := 400, reason := "Invalid Contact header" }
    else
      let expires := parseExpires (GetHeaderParam raw "expires")
      let expires := if expires < 0 then defaultExpires else expires
      let expires := if expires < 0 then 3600 else expires
      let result := removeBindingByAddress result address
      if expires = 0 then applyContacts now defaultExpires rest result
      else
        applyContacts now defaultExpires rest
          (result ++ [{ contact := normalizeContact raw expires
                        expires := now + expires }])

/-- `Registrar.applyRegistration`.  Returns the updated binding table and
either the resulting bindings or the error response status. -/
def applyRegistration (now : Int) (st : RegBindings) (key : String)
    (req : Message) : RegBindings × Except RegistrarError (List RegistrationBinding) :=
  let existing := regGet st key
  let filtered := existing.filter fun binding => now < binding.expires
  let contacts := expandContactValues (req.HeaderValues "Contact")
  let defaultExpires := parseExpires (req.GetHeader "Expires")
  if contacts = [] then (regSet st key filtered, .ok filtered)
  else if contacts.length = 1 ∧ goEqualFold (goTrimSpace (contacts.headD "")) "*" then
    if defaultExpires ≠ 0 then
      (st, .error { status := 400, reason := "Invalid wildcard contact" })
    else (regDel st key, .ok [])
  else
    match applyContacts now defaultExpires contacts filtered with
    | .error e => (st, .error e)
    | .ok result => (regSet st key result, .ok result)

/-- `Registrar.BindingsFor` (purges expired entries, returns active ones). -/
def BindingsFor (now : Int) (st : RegBindings) (username domain : String) :
    RegBindings × List RegistrationBinding :=
  let key := registrarKey username domain
  let existing := regGet st key
  let filtered := existing.filter fun binding => now < binding.expires
  if filtered = [] then (regDel st key, [])
  else (regSet st key filtered, filtered)

/-- `sip.registrarResponse`. -/
def registrarResponse (req : Message) (status : Int) (reason : String) : Message :=
  let resp := NewResponse status reason
  let resp := CopyHeaders resp req ["Via", "From", "To", "Call-ID", "CSeq"]
  resp.SetHeader "Content-Length" ["0"]

/-- `sip.ensureToTag` with the random tag passed explicitly. -/
def ensureToTag (resp : Message) (tagValue : String) : Message :=
  let toValue := resp.GetHeader "To"
  if toValue = "" then resp
  else if goContainsSub (goToLower toValue) ";tag=" then resp
  else resp.SetHeader "To" [replaceHeaderParam toValue "tag" tagValue]

/-- `sip.parseAddressOfRecord`. -/
def parseAddressOfRecord (t : String) : Option (String × String) :=
  let t := goTrimSpace t
  if t = "" then none
  else
    let t :=
      match goIndexChar t '<' with
      | some idx =>
        match goIndexChar (goDrop t idx) '>' with
        | some endIdx => goTake (goDrop t (idx + 1)) (endIdx - 1)
        | none => t
      | none => t
    let t :=
      match goIndexChar t '>' with
      | some idx => goTake t idx
      | none => t
    let t := goTrimSpace t
    let t := if goStartsWith (goToLower t) "sip:" then goDrop t 4 else t
    let t :=
      match goIndexChar t ';' with
      | some idx => goTake t idx
      | none => t
    match goSplitN2 t '@' with
    | [userPart, domainPart] =>
      let user := goTrimSpace userPart
      let domain := goTrimSpace domainPart
      if user = "" ∨ domain = "" then none else some (user, domain)
    | _ => none

/-- Outcome of `RegistrarStore.Lookup`. -/
inductive StoreResult where
  | found (user : User)
  | notFound
  | lookupFailed
deriving Repr, DecidableEq

/-- `Registrar.handleRegister`, with the store lookup, nonce and tag
generation passed explicitly. Always handled, so only the response and the
updated binding table are returned. -/
def handleRegister (lookup : String → String → StoreResult) (storePresent : Bool)
    (nonceValue tagValue : String) (now : Int) (st : RegBindings) (req : Message) :
    RegBindings × Message :=
  match parseAddressOfRecord (req.GetHeader "To") with
  | none => (st, registrarResponse req 400 "Bad Request")
  | some (username, domain) =>
    if ¬ storePresent then (st, registrarResponse req 500 "Server Internal Error")
    else
      match lookup username domain with
      | .notFound => (st, registrarResponse req 404 "Not Found")
      | .lookupFailed => (st, registrarResponse req 500 "Server Internal Error")
      | .found user =>
        match parseDigestAuthorization (req.GetHeader "Authorization") with
        | none =>
          let resp := registrarResponse req 401 "Unauthorized"
          let challenge := "Digest realm=\"" ++ domain ++ "\", nonce=\"" ++
            nonceValue ++ "\", algorithm=MD5, qop=\"auth\""
          (st, ensureToTag (resp.SetHeader "WWW-Authenticate" [challenge]) tagValue)
        | some authParams =>
          let realm :=
            if pget authParams "realm" = "" then domain else pget authParams "realm"
          if ¬ goEqualFold (pget authParams "username") user.Username ∨
              ¬ goEqualFold realm user.Domain then
            (st, ensureToTag (registrarResponse req 403 "Forbidden") tagValue)
          else
            match verifyDigest authParams req user realm with
            | .error _ =>
              (st, ensureToTag (registrarResponse req 403 "Forbidden") tagValue)
            | .ok _ =>
              match applyRegistration now st (registrarKey user.Username user.Domain) req with
              | (st₂, .error regErr) =>
                (st₂, ensureToTag (registrarResponse req regErr.status regErr.reason) tagValue)
              | (st₂, .ok bindings) =>
                let resp := registrarResponse req 200 "OK"
                let resp :=
                  if bindings ≠ [] then
                    resp.SetHeader "Contact" (bindings.map fun binding =>
                      let remaining := binding.expires - now
                      let remaining := if remaining < 0 then 0 else remaining
                      withContactExpires binding.contact remaining)
                  else resp
                (st₂, ensureToTag resp tagValue)

/-! ### Transaction layer (sip/transaction.go), time as integer nanosecond
ticks, `time.Time` zero values as `none` -/

inductive Direction where
  | downstream
  | upstream
deriving Repr, DecidableEq

structure TransportEvent where
  direction : Direction
  message : Message
deriving Repr, DecidableEq

inductive TuEventKind where
  | request
  | response
deriving Repr, DecidableEq

structure TuEvent where
  kind : TuEventKind
  serverTxID : String := ""
  clientTxID : String := ""
  message : Message
deriving Repr, DecidableEq

inductive TuActionKind where
  | forwardRequest
  | sendResponse
deriving Repr, DecidableEq

structure TuAction where
  kind : TuActionKind
  serverTxID : String := ""
  clientTxID : String := ""
  message : Option Message := none
deriving Repr, DecidableEq

/-- An output of the transaction layer: either an outbound transport event or
a TU notification. -/
inductive TLOut where
  | transport (evt : TransportEvent)
  | tu (evt : TuEvent)
deriving Repr, DecidableEq

/-- `sip.transactionData`. The stored request is always present in the source
(every constructor clones one in). -/
structure TransactionData where
  id : String := ""
  branch : String := ""
  method : String := ""
  request : Message := {}
  lastResponse : Option Message := none
deriving Repr, DecidableEq

inductive InviteServerState where
  | Proceeding
  | Completed
  | Confirmed
  | Terminated
deriving Repr, DecidableEq

inductive NonInviteServerState where
  | Trying
  | Proceeding
  | Completed
  | Terminated
deriving Repr, DecidableEq

inductive InviteClientState where
  | Calling
  | Proceeding
  | Completed
  | Terminated
deriving Repr, DecidableEq

inductive NonInviteClientState where
  | Trying
  | Proceeding
  | Completed
  | Terminated
deriving Repr, DecidableEq

/-- `sip.serverTransaction` implementations (invite_server_transaction.go,
non_invite_server_transaction). -/
inductive ServerTxn where
  | invite (data : TransactionData) (state : InviteServerState)
  | nonInvite (data : TransactionData) (state : NonInviteServerState)
deriving Repr, DecidableEq

def ServerTxn.data : ServerTxn → TransactionData
  | .invite d _ => d
  | .nonInvite d _ => d

def ServerTxn.setLastResponse : ServerTxn → Message → ServerTxn
  | .invite d s, m => .invite { d with lastResponse := some m } s
  | .nonInvite d s, m => .nonInvite { d with lastResponse := some m } s

def ServerTxn.refreshExpiresOnly (t : ServerTxn) : ServerTxn := t

/-- `inviteServerTransaction.onSendResponse` /
`nonInviteServerTransaction.onSendResponse`. -/
def ServerTxn.onSendResponse : ServerTxn → Int → ServerTxn
  | .invite d _, status =>
      .invite d
        (if status < 200 then .Proceeding
         else if status < 300 then .Terminated
         else .Completed)
  | .nonInvite d _, status =>
      .nonInvite d (if status < 200 then .Proceeding else .Terminated)

/-- `inviteServerTransaction.onReceiveAck`: Completed → Confirmed, reporting
whether the transition fired. -/
def ServerTxn.onReceiveAck : ServerTxn → ServerTxn × Bool
  | .invite d .Completed => (.invite d .Confirmed, true)
  | t => (t, false)

/-- `sip.newServerTransactionForMethod`. -/
def newServerTransactionForMethod (method : String) (data : TransactionData) :
    ServerTxn :=
  if goEqualFold method "INVITE" then .invite data .Proceeding
  else .nonInvite data .Trying

/-- `sip.clientTransaction` implementations (invite_client_transaction.go,
non_invite_client_transaction.go). -/
inductive ClientTxn where
  | invite (data : TransactionData) (state : InviteClientState) (serverTxID : String)
  | nonInvite (data : TransactionData) (state : NonInviteClientState) (serverTxID : String)
deriving Repr, DecidableEq

def ClientTxn.data : ClientTxn → TransactionData
  | .invite d _ _ => d
  | .nonInvite d _ _ => d

def ClientTxn.serverID : ClientTxn → String
  | .invite _ _ sid => sid
  | .nonInvite _ _ sid => sid

def ClientTxn.setLastResponse : ClientTxn → Message → ClientTxn
  | .invite d s sid, m => .invite { d with lastResponse := some m } s sid
  | .nonInvite d s sid, m => .nonInvite { d with lastResponse := some m } s sid

/-- `onReceiveResponse`: state transition plus the `completed` flag. -/
def ClientTxn.onReceiveResponse : ClientTxn → Int → ClientTxn × Bool
  | .invite d _ sid, status =>
      if status < 200 then (.invite d .Proceeding sid, false)
      else if status < 300 then (.invite d .Terminated sid, true)
      else (.invite d .Completed sid, false)
  | .nonInvite d _ sid, status =>
      if status < 200 then (.nonInvite d .Proceeding sid, false)
      else (.nonInvite d .Completed sid, false)

/-- `onTimeout`. -/
def ClientTxn.onTimeout : ClientTxn → ClientTxn
  | .invite d _ sid => .invite d .Terminated sid
  | .nonInvite d _ sid => .nonInvite d .Terminated sid

def ClientTxn.isInvite : ClientTxn → Bool
  | .invite _ _ _ => true
  | .nonInvite _ _ _ => false

/-- `sip.newClientTransactionForMethod`. -/
def newClientTransactionForMethod (method : String) (data : TransactionData)
    (serverTxID : String) : ClientTxn :=
  if goEqualFold method "INVITE" then .invite data .Calling serverTxID
  else .nonInvite data .Trying serverTxID

structure ServerTransactionEntry where
  txn : ServerTxn
  expires : Int := 0
  deadline : Option Int := none
  retransmitAt : Option Int := none
  retransmitInterval : Int := 0
deriving Repr, DecidableEq

structure ClientTransactionEntry where
  txn : ClientTxn
  deadline : Option Int := none
  retransmitAt : Option Int := none
  retransmitInterval : Int := 0
  terminateAt : Option Int := none
  timerCDeadline : Option Int := none
deriving Repr, DecidableEq

/-- Timer constants (nanoseconds, as Go `time.Duration`). -/
def defaultTimerT1 : Int := 500000000
def defaultTimerT2 : Int := 4000000000
def defaultTimerT4 : Int := 5000000000
def defaultServerTransactionTTL : Int := 32000000000
def defaultTimerGInitial : Int := defaultTimerT1
def defaultTimerGMax : Int := defaultTimerT2
def defaultTimerH : Int := 64 * defaultTimerT1
def defaultTimerI : Int := defaultTimerT4
def defaultTimerJ : Int := 64 * defaultTimerT1
def defaultTimerAInitial : Int := defaultTimerT1
def defaultTimerAMax : Int := defaultTimerT2
def defaultTimerB : Int := 64 * defaultTimerT1
def defaultTimerC : Int := 180000000000
def defaultTimerD : Int := 32000000000
def defaultTimerEInitial : Int := defaultTimerT1
def defaultTimerEMax : Int := defaultTimerT2
def defaultTimerF : Int := 64 * defaultTimerT1
def defaultTimerK : Int := defaultTimerT4

structure TransactionLayerConfig where
  serverTxTTL : Int := defaultServerTransactionTTL
  timerGInitial : Int := defaultTimerGInitial
  timerGMax : Int := defaultTimerGMax
  timerHDuration : Int := defaultTimerH
  timerIDuration : Int := defaultTimerI
  timerJDuration : Int := defaultTimerJ
  timerAInitial : Int := defaultTimerAInitial
  timerAMax : Int := defaultTimerAMax
  timerBDuration : Int := defaultTimerB
  timerCDuration : Int := defaultTimerC
  timerDDuration : Int := defaultTimerD
  timerEInitial : Int := defaultTimerEInitial
  timerEMax : Int := defaultTimerEMax
  timerFDuration : Int := defaultTimerF
  timerKDuration : Int := defaultTimerK
deriving Repr, DecidableEq

/-- The accessor fallbacks of transaction.go (`serverTransactionRetention`,
`timerG* .. timerK`): non-positive configured values fall back to defaults. -/
def TransactionLayerConfig.serverTransactionRetention (c : TransactionLayerConfig) : Int :=
  if c.serverTxTTL ≤ 0 then defaultServerTransactionTTL else c.serverTxTTL

def TransactionLayerConfig.timerGStart (c : TransactionLayerConfig) : Int :=
  if c.timerGInitial ≤ 0 then defaultTimerGInitial else c.timerGInitial

def TransactionLayerConfig.timerGMaxInterval (c : TransactionLayerConfig) : Int :=
  if c.timerGMax ≤ 0 then defaultTimerGMax else c.timerGMax

def TransactionLayerConfig.timerH (c : TransactionLayerConfig) : Int :=
  if c.timerHDuration ≤ 0 then defaultTimerH else c.timerHDuration

def TransactionLayerConfig.timerI (c : TransactionLayerConfig) : Int :=
  if c.timerIDuration ≤ 0 then defaultTimerI else c.timerIDuration

def TransactionLayerConfig.timerJ (c : TransactionLayerConfig) : Int :=
  if c.timerJDuration ≤ 0 then defaultTimerJ else c.timerJDuration

def TransactionLayerConfig.timerAStart (c : TransactionLayerConfig) : Int :=
  if c.timerAInitial ≤ 0 then defaultTimerAInitial else c.timerAInitial

def TransactionLayerConfig.timerAMaxInterval (c : TransactionLayerConfig) : Int :=
  if c.timerAMax ≤ 0 then defaultTimerAMax else c.timerAMax

def TransactionLayerConfig.timerB (c : TransactionLayerConfig) : Int :=
  if c.timerBDuration ≤ 0 then defaultTimerB else c.timerBDuration

def TransactionLayerConfig.timerC (c : TransactionLayerConfig) : Int :=
  if c.timerCDuration ≤ 0 then defaultTimerC else c.timerCDuration

def TransactionLayerConfig.timerD (c : TransactionLayerConfig) : Int :=
  if c.timerDDuration ≤ 0 then defaultTimerD else c.timerDDuration

def TransactionLayerConfig.timerEStart (c : TransactionLayerConfig) : Int :=
  if c.timerEInitial ≤ 0 then defaultTimerEInitial else c.timerEInitial

def TransactionLayerConfig.timerEMaxInterval (c : TransactionLayerConfig) : Int :=
  if c.timerEMax ≤ 0 then defaultTimerEMax else c.timerEMax

def TransactionLayerConfig.timerF (c : TransactionLayerConfig) : Int :=
  if c.timerFDuration ≤ 0 then defaultTimerF else c.timerFDuration

def TransactionLayerConfig.timerK (c : TransactionLayerConfig) : Int :=
  if c.timerKDuration ≤ 0 then defaultTimerK else c.timerKDuration

abbrev ServerTxns := List (String × ServerTransactionEntry)
abbrev ClientTxns := List (String × ClientTransactionEntry)

/-- The mutable registries of `sip.transactionLayer`. -/
structure TransactionLayerState where
  config : TransactionLayerConfig := {}
  serverTxns : ServerTxns := []
  clientTxns : ClientTxns := []
deriving Repr, DecidableEq

def stGet (st : ServerTxns) (k : String) : Option ServerTransactionEntry :=
  (List.find? (fun p => p.1 == k) st).map (·.2)

def stSet (st : ServerTxns) (k : String) (v : ServerTransactionEntry) : ServerTxns :=
  if List.any st (fun p => p.1 == k) then
    List.map (fun p => if p.1 == k then (k, v) else p) st
  else List.append st [(k, v)]

def stDel (st : ServerTxns) (k : String) : ServerTxns :=
  List.filter (fun p => ¬ p.1 == k) st

def ctGet (st : ClientTxns) (k : String) : Option ClientTransactionEntry :=
  (List.find? (fun p => p.1 == k) st).map (·.2)

def ctSet (st : ClientTxns) (k : String) (v : ClientTransactionEntry) : ClientTxns :=
  if List.any st (fun p => p.1 == k) then
    List.map (fun p => if p.1 == k then (k, v) else p) st
  else List.append st [(k, v)]

def ctDel (st : ClientTxns) (k : String) : ClientTxns :=
  List.filter (fun p => ¬ p.1 == k) st

/-- `sendToTransport`: outbound messages get their Content-Length fixed. -/
def sendToTransport (dir : Direction) (m : Message) : TLOut :=
  .transport { direction := dir, message := m.EnsureContentLength }

/-- `sendToTU`. -/
def sendToTU (e : TuEvent) : TLOut :=
  .tu { e with message := e.message.EnsureContentLength }

/-- `transactionLayer.rejectRequest`. -/
def rejectRequest (req : Message) (status : Int) (reason : String) : TLOut :=
  let resp := NewResponse status reason
  let resp := CopyHeaders resp req ["Via", "From", "To", "Call-ID", "CSeq"]
  let resp :=
    if resp.GetHeader "To" = "" then resp.SetHeader "To" [req.GetHeader "To"] else resp
  sendToTransport .downstream resp.EnsureContentLength

/-- `sip.timeoutResponseFromRequest` (the stored request is always present). -/
def timeoutResponseFromRequest (data : TransactionData) (status : Int)
    (reason : String) : Message :=
  let resp := NewResponse status reason
  let resp := CopyHeaders resp data.request ["Via", "From", "To", "Call-ID", "CSeq"]
  let resp :=
    if resp.GetHeader "To" = "" then
      resp.SetHeader "To" [data.request.GetHeader "To"]
    else resp
  resp.EnsureContentLength

/-- `sip.cancelFromRequest`. -/
def cancelFromRequest (data : TransactionData) : Message :=
  let req := data.request
  let cancel := { req with
    isRequest := true
    Method := "CANCEL"
    StatusCode := 0
    ReasonPhrase := ""
    Body := "" }
  let cancel :=
    match parseCSeqNumber (req.GetHeader "CSeq") with
    | some number => cancel.SetHeader "CSeq" [formatCSeq number "CANCEL"]
    | none => cancel.SetHeader "CSeq" [formatCSeq 1 "CANCEL"]
  cancel.EnsureContentLength

/-- `transactionLayer.handleAck`. -/
def handleAck (now : Int) (st : TransactionLayerState) (branch : String) :
    TransactionLayerState :=
  if branch = "" then st
  else
    let key := transactionKey branch "INVITE"
    match stGet st.serverTxns key with
    | none => st
    | some entry =>
      match entry.txn.onReceiveAck with
      | (_, false) => st
      | (txn₂, true) =>
        let timeout := st.config.timerI
        if timeout ≤ 0 then { st with serverTxns := stDel st.serverTxns key }
        else
          let entry₂ := { entry with
            txn := txn₂
            deadline := some (now + timeout)
            retransmitInterval := 0
            retransmitAt := none
            expires := now + st.config.serverTransactionRetention }
          { st with serverTxns := stSet st.serverTxns key entry₂ }

/-- `transactionLayer.handleRequest` (downstream inbound request). -/
def handleRequest (now : Int) (st : TransactionLayerState) (req : Message) :
    TransactionLayerState × List TLOut :=
  let branch := topViaBranch req
  if branch = "" then (st, [rejectRequest req 400 "Missing branch"])
  else
    let method := goToUpper req.Method
    if method = "ACK" then (handleAck now st branch, [])
    else
      let key := transactionKey branch method
      match stGet st.serverTxns key with
      | some entry =>
        let outs :=
          match entry.txn.data.lastResponse with
          | some resp => [sendToTransport .downstream resp]
          | none => []
        let entry₂ := { entry with
          expires := now + st.config.serverTransactionRetention }
        ({ st with serverTxns := stSet st.serverTxns key entry₂ }, outs)
      | none =>
        let txnData : TransactionData :=
          { id := key, branch := branch, method := method, request := req }
        let txn := newServerTransactionForMethod method txnData
        let entry : ServerTransactionEntry :=
          { txn := txn, expires := now + st.config.serverTransactionRetention }
        let event : TuEvent :=
          { kind := .request, serverTxID := key, message := req }
        ({ st with serverTxns := stSet st.serverTxns key entry }, [sendToTU event])

/-- `transactionLayer.handleResponse` (upstream inbound response). -/
def handleResponse (now : Int) (st : TransactionLayerState) (resp : Message) :
    TransactionLayerState × List TLOut :=
  let branch := topViaBranch resp
  if branch = "" then (st, [])
  else
    let method := cseqMethod resp
    if method = "" then (st, [])
    else
      let key := transactionKey branch method
      match ctGet st.clientTxns key with
      | none => (st, [])
      | some entry =>
        let txn₁ := entry.txn.setLastResponse resp
        let status := resp.StatusCode
        let (txn₂, completed) := txn₁.onReceiveResponse status
        let entry := { entry with txn := txn₂ }
        let clientTxns₂ :=
          if txn₂.isInvite then
            let entry := { entry with
              deadline := none, retransmitAt := none, retransmitInterval := 0 }
            if status < 200 then
              let entry :=
                if entry.timerCDeadline = none ∧ 0 < st.config.timerC then
                  { entry with timerCDeadline := some (now + st.config.timerC) }
                else entry
              ctSet st.clientTxns key entry
            else
              let entry := { entry with timerCDeadline := none }
              if status < 300 then ctDel st.clientTxns key
              else if 0 < st.config.timerD then
                ctSet st.clientTxns key
                  { entry with terminateAt := some (now + st.config.timerD) }
              else ctDel st.clientTxns key
          else
            if status < 200 then
              let interval := st.config.timerEMaxInterval
              let entry :=
                if interval ≤ 0 then
                  { entry with retransmitAt := none, retransmitInterval := 0 }
                else
                  { entry with retransmitInterval := interval
                               retransmitAt := some (now + interval) }
              ctSet st.clientTxns key entry
            else
              let entry := { entry with
                deadline := none, retransmitAt := none, retransmitInterval := 0 }
              if 0 < st.config.timerK then
                ctSet st.clientTxns key
                  { entry with terminateAt := some (now + st.config.timerK) }
              else ctDel st.clientTxns key
        let clientTxns₃ := if completed then ctDel clientTxns₂ key else clientTxns₂
        let event : TuEvent :=
          { kind := .response
            serverTxID := txn₂.serverID
            clientTxID := key
            message := resp }
        ({ st with clientTxns := clientTxns₃ }, [sendToTU event])

/-- `transactionLayer.handleTUAction`; `freshBranch` stands for the
`newBranchID()` call on the branch-less path. -/
def handleTUAction (freshBranch : String) (now : Int)
    (st : TransactionLayerState) (action : TuAction) :
    TransactionLayerState × List TLOut :=
  match action.kind, action.message with
  | .forwardRequest, none => (st, [])
  | .forwardRequest, some msg =>
    let branch :=
      if topViaBranch msg ≠ "" then topViaBranch msg
      else if keyBranch action.clientTxID ≠ "" then keyBranch action.clientTxID
      else freshBranch
    let method := goToUpper msg.Method
    let key := if action.clientTxID = "" then transactionKey branch method
               else action.clientTxID
    let txnData : TransactionData :=
      { id := key, branch := branch, method := method, request := msg }
    let txn := newClientTransactionForMethod method txnData action.serverTxID
    let entry : ClientTransactionEntry :=
      if txn.isInvite then
        { txn := txn
          retransmitInterval :=
            if 0 < st.config.timerAStart then st.config.timerAStart else 0
          retransmitAt :=
            if 0 < st.config.timerAStart then some (now + st.config.timerAStart)
            else none
          deadline :=
            if 0 < st.config.timerB then some (now + st.config.timerB) else none
          timerCDeadline :=
            if 0 < st.config.timerC then some (now + st.config.timerC) else none }
      else
        { txn := txn
          retransmitInterval :=
            if 0 < st.config.timerEStart then st.config.timerEStart else 0
          retransmitAt :=
            if 0 < st.config.timerEStart then some (now + st.config.timerEStart)
            else none
          deadline :=
            if 0 < st.config.timerF then some (now + st.config.timerF) else none }
    ({ st with clientTxns := ctSet st.clientTxns key entry },
     [sendToTransport .upstream msg])
  | .sendResponse, none => (st, [])
  | .sendResponse, some msg =>
    match stGet st.serverTxns action.serverTxID with
    | none => (st, [])
    | some entry =>
      let resp := msg
      let txn₁ := entry.txn.setLastResponse resp
      let status := resp.StatusCode
      let txn₂ := txn₁.onSendResponse status
      let entry := { entry with
        txn := txn₂
        expires := now + st.config.serverTransactionRetention }
      let entry :=
        if 200 ≤ status then
          match txn₂ with
          | .invite _ _ =>
            if 300 ≤ status then
              { entry with
                deadline := some (now + st.config.timerH)
                retransmitInterval := st.config.timerGStart
                retransmitAt := some (now + st.config.timerGStart) }
            else
              { entry with
                deadline := some (now + st.config.timerH)
                retransmitInterval := 0
                retransmitAt := none }
          | .nonInvite _ _ =>
            { entry with
              deadline := some (now + st.config.timerJ)
              retransmitInterval := 0
              retransmitAt := none }
        else entry
      ({ st with serverTxns := stSet st.serverTxns action.serverTxID entry },
       [sendToTransport .downstream resp])

/-- One server-transaction entry of `cleanupTransactions`: termination
deadline, then due retransmission (timer G), then retention expiry. -/
def cleanupServerEntry (cfg : TransactionLayerConfig) (now : Int)
    (p : String × ServerTransactionEntry) :
    Option (String × ServerTransactionEntry) × List TLOut :=
  let (key, entry) := p
  if entry.deadline ≠ none ∧ entry.deadline.getD 0 < now then (none, [])
  else if entry.retransmitAt ≠ none ∧ entry.retransmitAt.getD 0 ≤ now then
    match entry.txn.data.lastResponse with
    | some resp =>
      let interval :=
        if entry.retransmitInterval ≤ 0 then cfg.timerGStart
        else
          let doubled := entry.retransmitInterval * 2
          if 0 < cfg.timerGMaxInterval ∧ cfg.timerGMaxInterval < doubled then
            cfg.timerGMaxInterval
          else doubled
      (some (key, { entry with
          retransmitInterval := interval
          retransmitAt := some (now + interval)
          expires := now + cfg.serverTransactionRetention }),
       [sendToTransport .downstream resp])
    | none =>
      (some (key, { entry with retransmitAt := none, retransmitInterval := 0 }), [])
  else if entry.expires < now then (none, [])
  else (some (key, entry), [])

/-- One client-transaction entry of `cleanupTransactions`: timer B/F, then
timer C (CANCEL + 408), then due retransmission (timer A/E), then the
termination timer (D/K). -/
def cleanupClientEntry (cfg : TransactionLayerConfig) (now : Int)
    (p : String × ClientTransactionEntry) :
    Option (String × ClientTransactionEntry) × List TLOut :=
  let (key, entry) := p
  let data := entry.txn.data
  if entry.deadline ≠ none ∧ entry.deadline.getD 0 ≤ now then
    (none,
     [sendToTU { kind := .response, serverTxID := entry.txn.serverID,
                 clientTxID := key,
                 message := timeoutResponseFromRequest data 408 "Request Timeout" }])
  else if entry.timerCDeadline ≠ none ∧ entry.timerCDeadline.getD 0 ≤ now then
    (none,
     [sendToTransport .upstream (cancelFromRequest data),
      sendToTU { kind := .response, serverTxID := entry.txn.serverID,
                 clientTxID := key,
                 message := timeoutResponseFromRequest data 408 "Request Timeout" }])
  else if entry.retransmitAt ≠ none ∧ entry.retransmitAt.getD 0 ≤ now then
    let maxI := if entry.txn.isInvite then cfg.timerAMaxInterval
                else cfg.timerEMaxInterval
    let start := if entry.txn.isInvite then cfg.timerAStart else cfg.timerEStart
    let interval :=
      if entry.retransmitInterval ≤ 0 then start
      else
        let doubled := entry.retransmitInterval * 2
        if 0 < maxI ∧ maxI < doubled then maxI else doubled
    (some (key, { entry with
        retransmitInterval := interval
        retransmitAt := some (now + interval) }),
     [sendToTransport .upstream data.request])
  else if entry.terminateAt ≠ none ∧ entry.terminateAt.getD 0 ≤ now then (none, [])
  else (some (key, entry), [])

def cleanupFold (step : (String × α) → Option (String × α) × List TLOut) :
    List (String × α) → List (String × α) × List TLOut
  | [] => ([], [])
  | p :: rest =>
    let (kept, outs) := step p
    let (restKept, restOuts) := cleanupFold step rest
    (match kept with
     | some q => q :: restKept
     | none => restKept, outs ++ restOuts)

/-- `transactionLayer.cleanupTransactions`. -/
def cleanupTransactions (now : Int) (st : TransactionLayerState) :
    TransactionLayerState × List TLOut :=
  let (serverTxns₂, serverOuts) :=
    cleanupFold (cleanupServerEntry st.config now) st.serverTxns
  let (clientTxns₂, clientOuts) :=
    cleanupFold (cleanupClientEntry st.config now) st.clientTxns
  ({ st with serverTxns := serverTxns₂, clientTxns := clientTxns₂ },
   serverOuts ++ clientOuts)

/-! ### Transaction user: broadcast sessions (proxy core) -/

/-- `broadcastFork`. -/
structure BroadcastFork where
  clientTxID : String
  branch : String
  requestURI : String := ""
  invite : Message := {}
  final : Bool := false
  cancelled : Bool := false
deriving Repr, DecidableEq

/-- `broadcastSession` (forks as an association list in `forkOrder`). -/
structure BroadcastSession where
  original : Message := {}
  callKey : String := ""
  cseqNumber : Int := 0
  forks : List BroadcastFork := []
  winner : String := ""
  finalised : Bool := false
  canceled : Bool := false
  bestStatus : Int := -1
  bestResponse : Option Message := none
  winningResp : Option Message := none
deriving Repr, DecidableEq

/-- `broadcastSession.allForksFinal`. -/
def BroadcastSession.allForksFinal (s : BroadcastSession) : Bool :=
  s.forks.all (·.final)

def findFork (forks : List BroadcastFork) (id : String) : Option BroadcastFork :=
  forks.find? (fun f => f.clientTxID == id)

def markForkFinal (forks : List BroadcastFork) (id : String) : List BroadcastFork :=
  forks.map fun f => if f.clientTxID == id then { f with final := true } else f

def markForkCancelled (forks : List BroadcastFork) (id : String) : List BroadcastFork :=
  forks.map fun f => if f.clientTxID == id then { f with cancelled := true } else f

/-- `transactionUser.sendAction` fixes Content-Length on the way out. -/
def emitAction (a : TuAction) : TuAction :=
  { a with message := a.message.map Message.EnsureContentLength }

/-- The CANCEL built by `transactionUser.sendCancelForFork` (the guard and the
`cancelled` marking stay with the caller). -/
def cancelActionForFork (serverTxID : String) (s : BroadcastSession)
    (fork : BroadcastFork) : TuAction :=
  let cancel := { fork.invite with
    Method := "CANCEL"
    RequestURI := fork.requestURI
    Body := ""
    StatusCode := 0
    ReasonPhrase := "" }
  let cancel := cancel.SetHeader "CSeq" [formatCSeq s.cseqNumber "CANCEL"]
  let cancel := cancel.DelHeader "Content-Length"
  emitAction
    { kind := .forwardRequest
      serverTxID := serverTxID
      clientTxID := transactionKey fork.branch "CANCEL"
      message := some cancel }

/-- `transactionUser.sendCancelForFork` applied to every non-winner,
non-final fork, in fork order. -/
def cancelOtherForks (serverTxID winnerID : String) (s : BroadcastSession) :
    List BroadcastFork × List TuAction :=
  let acts := s.forks.filterMap fun f =>
    if f.clientTxID == winnerID ∨ f.final ∨ f.cancelled then none
    else some (cancelActionForFork serverTxID s f)
  let forks := s.forks.map fun f =>
    if f.clientTxID == winnerID ∨ f.final ∨ f.cancelled then f
    else { f with cancelled := true }
  (forks, acts)

/-- `transactionUser.sendByeForFork`, with the fresh branch passed in. -/
def byeActionForFork (freshBranch serverTxID : String) (s : BroadcastSession)
    (fork : BroadcastFork) (resp : Message) : TuAction :=
  let bye := { fork.invite with
    Method := "BYE"
    RequestURI := fork.requestURI
    Body := ""
    StatusCode := 0
    ReasonPhrase := "" }
  let bye := bye.SetHeader "CSeq" [formatCSeq (s.cseqNumber + 1) "BYE"]
  let contact := goTrimSpace (resp.GetHeader "Contact")
  let bye :=
    if contact ≠ "" then
      if contactAddress contact = "" then { bye with RequestURI := contact }
      else { bye with RequestURI := contactAddress contact }
    else bye
  let bye := bye.DelHeader "Content-Length"
  let bye := prependVia bye freshBranch
  let bye := decrementMaxForwards bye
  emitAction
    { kind := .forwardRequest
      serverTxID := serverTxID
      clientTxID := transactionKey freshBranch "BYE"
      message := some bye }

/-- `transactionUser.handleBroadcastResponse` for a session found under
`serverTxID`; the returned flag says whether `cleanupBroadcastSession` ran
(the session was destroyed). -/
def handleBroadcastResponse (freshBranch serverTxID clientTxID : String)
    (s : BroadcastSession) (resp : Message) :
    BroadcastSession × List TuAction × Bool :=
  let method := goToUpper (cseqMethod resp)
  if method = "CANCEL" then (s, [], false)
  else
    match findFork s.forks clientTxID with
    | none => (s, [], false)
    | some fork =>
      let resp := removeTopViaWithBranch resp fork.branch
      let status := resp.StatusCode
      if status < 200 then
        if s.finalised then (s, [], false)
        else
          (s,
           [emitAction { kind := .sendResponse, serverTxID := serverTxID,
                         clientTxID := clientTxID, message := some resp }],
           false)
      else
        let s₁ := { s with forks := markForkFinal s.forks clientTxID }
        let (s₂, acts) :=
          if status < 300 then
            if s₁.winner = "" then
              let s₂ := { s₁ with
                winner := clientTxID
                winningResp := some resp
                finalised := true }
              let winAct := emitAction
                { kind := .sendResponse, serverTxID := serverTxID,
                  clientTxID := clientTxID, message := some resp }
              let (forks₂, cancelActs) := cancelOtherForks serverTxID clientTxID s₂
              ({ s₂ with forks := forks₂ }, winAct :: cancelActs)
            else if clientTxID ≠ s₁.winner then
              (s₁, [byeActionForFork freshBranch serverTxID s₁ fork resp])
            else (s₁, [])
          else
            let s₂ :=
              if s₁.bestResponse = none ∨ s₁.bestStatus < status then
                { s₁ with bestStatus := status, bestResponse := some resp }
              else s₁
            if s₂.winner = "" ∧ s₂.allForksFinal then
              let s₃ := { s₂ with finalised := true }
              let best := s₃.bestResponse.getD resp
              (s₃,
               [emitAction { kind := .sendResponse, serverTxID := serverTxID,
                             message := some best }])
            else (s₂, [])
        let destroyed := s₂.finalised ∧ s₂.allForksFinal
        (s₂, acts, destroyed)

/-- A run of fork responses against one broadcast session; after the session
is destroyed the remaining events no longer belong to it. -/
def runBroadcast (freshBranch serverTxID : String) :
    BroadcastSession → List (String × Message) →
    BroadcastSession × List TuAction × Bool
  | s, [] => (s, [], false)
  | s, (clientTxID, resp) :: rest =>
    match handleBroadcastResponse freshBranch serverTxID clientTxID s resp with
    | (s₁, acts, true) => (s₁, acts, true)
    | (s₁, acts, false) =>
      match runBroadcast freshBranch serverTxID s₁ rest with
      | (s₂, acts₂, destroyed) => (s₂, acts ++ acts₂, destroyed)

/-! ### Next-hop routing (sip/stack.go) -/

/-- A resolved UDP address, kept abstract as its string form; `resolve`
stands for `net.ResolveUDPAddr("udp", hostPort)`. -/
abbrev UDPAddr := String

/-- Go `net.JoinHostPort`. -/
def joinHostPort (host port : String) : String :=
  if goContainsChar host ':' then "[" ++ host ++ "]:" ++ port
  else host ++ ":" ++ port

/-- `sip.parseSIPURI`, steps before the `@` split: the successive
`uri = ...` reassignments of the source (angle-bracket extraction, `>`
truncation, scheme strip, `?` and `;` truncation). -/
def sipCleanURI (uri : String) : String :=
  let uri :=
    match goIndexChar uri '<' with
    | some idx =>
      match goIndexChar (goDrop uri idx) '>' with
      | some endIdx => goTake (goDrop uri (idx + 1)) (endIdx - 1)
      | none => uri
    | none => uri
  let uri :=
    match goIndexChar uri '>' with
    | some idx => goTake uri idx
    | none => uri
  let lower := goToLower uri
  let uri :=
    if goStartsWith lower "sip:" then goDrop uri 4
    else if goStartsWith lower "sips:" then goDrop uri 5
    else uri
  let uri :=
    match goIndexChar uri '?' with
    | some idx => goTake uri idx
    | none => uri
  match goIndexChar uri ';' with
  | some idx => goTake uri idx
  | none => uri

/-- `sip.parseSIPURI`, host:port part: the statements from the
`strings.LastIndex(uri, "@")` split onward. -/
def sipHostTail (user hostPort : String) : Option (String × String × String) :=
  let hostPort := goTrimSpace hostPort
  if hostPort = "" then none
  else if goStartsWith hostPort "[" then
    match goIndexChar hostPort ']' with
    | none => none
    | some endIdx =>
      let host := goTrimSpace (goTake (goDrop hostPort 1) (endIdx - 1))
      let rest := goTrimSpace (goDrop hostPort (endIdx + 1))
      let port := if goStartsWith rest ":" then goTrimSpace (goDrop rest 1) else ""
      let host := goTrimSpace (goTrim host ['[', ']'])
      if host = "" then none
      else some (goTrimSpace user, host, if port = "" then "5060" else port)
  else
    let (host, port) :=
      match goLastIndexChar hostPort ':' with
      | some colon =>
        if goContainsChar (goDrop hostPort (colon + 1)) ':' then (hostPort, "")
        else (goTrimSpace (goTake hostPort colon), goTrimSpace (goDrop hostPort (colon + 1)))
      | none => (hostPort, "")
    let host := goTrimSpace (goTrim host ['[', ']'])
    if host = "" then none
    else some (goTrimSpace user, host, if port = "" then "5060" else port)

/-- `sip.parseSIPURI`: returns (user, host, port), port defaulting to 5060. -/
def parseSIPURI (uri : String) : Option (String × String × String) :=
  let uri := goTrimSpace uri
  if uri = "" then none
  else
    let uri := goTrimSpace (sipCleanURI uri)
    if uri = "" then none
    else
      match goLastIndexChar uri '@' with
      | some atIdx =>
        sipHostTail (goTrimSpace (goTake uri atIdx)) (goDrop uri (atIdx + 1))
      | none => sipHostTail "" uri

/-- `sip.sipURIToUDPAddr` with the resolver passed in. -/
def sipURIToUDPAddr (resolve : String → Option UDPAddr) (uri : String) :
    Option UDPAddr :=
  match parseSIPURI uri with
  | none => none
  | some (_, host, port) =>
    if host = "" then none else resolve (joinHostPort host port)

/-- The routing-relevant state of `sip.SIPStack` after `Start`. -/
structure RoutingStack where
  managedDomains : List String := []
  directory : List (String × User) := []
  registrarBindings : RegBindings := []
  upstreamAddr : Option UDPAddr := none
deriving Repr, DecidableEq

/-- `SIPStack.cloneDefaultUpstream` (`none` for the "no upstream address
configured" error). -/
def cloneDefaultUpstream (s : RoutingStack) : Option UDPAddr :=
  s.upstreamAddr

/-- `SIPStack.resolveRegistrarTarget`. -/
def resolveRegistrarTarget (resolve : String → Option UDPAddr) (now : Int)
    (s : RoutingStack) (user domain : String) : Option UDPAddr :=
  if user = "" ∨ domain = "" then none
  else
    let bindings := (BindingsFor now s.registrarBindings user domain).2
    bindings.findSome? fun binding =>
      let contact := contactAddress binding.contact
      let contact := if contact = "" then binding.contact else contact
      sipURIToUDPAddr resolve contact

/-- `SIPStack.resolveDirectoryTarget`. -/
def resolveDirectoryTarget (resolve : String → Option UDPAddr)
    (s : RoutingStack) (user domain : String) : Option UDPAddr :=
  if user = "" ∨ domain = "" then none
  else
    match List.find? (fun p => p.1 == registrarKey user domain) s.directory with
    | none => none
    | some p =>
      if p.2.ContactURI = "" then none
      else sipURIToUDPAddr resolve p.2.ContactURI

/-- `SIPStack.selectUpstreamTarget`. -/
def selectUpstreamTarget (resolve : String → Option UDPAddr) (now : Int)
    (s : RoutingStack) (msg : Message) : Option UDPAddr :=
  if ¬ msg.isRequest then cloneDefaultUpstream s
  else
    match parseSIPURI msg.RequestURI with
    | none => cloneDefaultUpstream s
    | some (user, host, port) =>
      let lowerHost := goToLower host
      let managedResult :=
        if s.managedDomains.contains lowerHost then
          match resolveRegistrarTarget resolve now s user lowerHost with
          | some target => some target
          | none => resolveDirectoryTarget resolve s user lowerHost
        else none
      match managedResult with
      | some target => some target
      | none =>
        if host ≠ "" then
          match resolve (joinHostPort host port) with
          | some addr => some addr
          | none => cloneDefaultUpstream s
        else cloneDefaultUpstream s

/-- The resolution order in the words of the specification (§4.5): registrar
for locally managed domains, then the directory entry, then direct
resolution of host:port, then the static default upstream, else failure.
This is the comparison definition for the refinement claim; it is written
from the spec, not from the code. -/
def specOrderUpstreamTarget (resolve : String → Option UDPAddr) (now : Int)
    (s : RoutingStack) (msg : Message) : Option UDPAddr :=
  if ¬ msg.isRequest then cloneDefaultUpstream s
  else
    match parseSIPURI msg.RequestURI with
    | none => cloneDefaultUpstream s
    | some (user, host, port) =>
      let lowerHost := goToLower host
      let step2 :=
        if s.managedDomains.contains lowerHost then
          resolveRegistrarTarget resolve now s user lowerHost
        else none
      let step3 := resolveDirectoryTarget resolve s user lowerHost
      let step4 := if host ≠ "" then resolve (joinHostPort host port) else none
      (step2 <|> step3 <|> step4 <|> cloneDefaultUpstream s)

/-! ### Concrete inputs used by witnesses and counterexamples -/

/-- Well-formedness of a header table as Go's `map[string][]string` guarantees
it: keys are unique and no key maps to an empty value slice. -/
def HeadersWellFormed (m : Message) : Prop :=
  (m.Headers.map Prod.fst).Nodup ∧ ∀ p ∈ m.Headers, p.2 ≠ []

/-- A downstream INVITE with one Via, used by witnesses. -/
def sampleInvite : Message :=
  { isRequest := true
    Method := "INVITE"
    RequestURI := "sip:bob@example.com"
    Headers :=
      [("Via", ["SIP/2.0/UDP client.example.com;branch=z9hG4bKclient1"]),
       ("Max-Forwards", ["70"]),
       ("Cseq", ["314159 INVITE"]),
       ("Call-Id", ["call-1"]),
       ("From", ["<sip:alice@example.com>;tag=1"]),
       ("To", ["<sip:bob@example.com>"])] }

/-- A message with one Via value, for the C4 counterexample. -/
def viaMsg : Message :=
  { isRequest := true
    Method := "INVITE"
    RequestURI := "sip:bob@example.com"
    Headers := [("Via", ["SIP/2.0/UDP client.example.com;branch=z9hG4bKc1"])] }

/-- A 200 OK with a correct Content-Length, cached by a server transaction in
the C2 witness. -/
def cachedOK : Message :=
  { StatusCode := 200
    ReasonPhrase := "OK"
    Headers :=
      [("Via", ["SIP/2.0/UDP client.example.com;branch=z9hG4bKclient1"]),
       ("Content-Length", ["0"])] }

/-- A transaction-layer state holding one INVITE server transaction with a
cached final response (C2/C3 witnesses). -/
def c2State : TransactionLayerState :=
  { serverTxns :=
      [("INVITE|z9hG4bKclient1",
        { txn := ServerTxn.invite
            { id := "INVITE|z9hG4bKclient1"
              branch := "z9hG4bKclient1"
              method := "INVITE"
              request := sampleInvite
              lastResponse := some cachedOK }
            InviteServerState.Proceeding
          expires := 1000 })] }

/-- The TU action sending a 200 final for the INVITE server transaction of
`c2State` (C3). -/
def c3Action : TuAction :=
  { kind := .sendResponse
    serverTxID := "INVITE|z9hG4bKclient1"
    message := some cachedOK }

/-- Binding table with one active binding for alice (C8/C10). -/
def aliceBindings : RegBindings :=
  [("alice@example.com", [{ contact := "<sip:a@1.2.3.4>;expires=600", expires := 500 }])]

/-- Wildcard REGISTER with `Expires: -1` (C8 counterexample). -/
def wildcardNegReq : Message :=
  { isRequest := true
    Method := "REGISTER"
    Headers := [("Contact", ["*"]), ("Expires", ["-1"])] }

/-- Wildcard REGISTER with `Expires: 0` (C8 witness). -/
def wildcardZeroReq : Message :=
  { isRequest := true
    Method := "REGISTER"
    Headers := [("Contact", ["*"]), ("Expires", ["0"])] }

/-- REGISTER with a single contact carrying a negative expires parameter
(C10 witness). -/
def negExpiresReq : Message :=
  { isRequest := true
    Method := "REGISTER"
    Headers := [("Contact", ["<sip:a@1.2.3.4>;expires=-2"])] }

/-- Digest credentials for the C7 counterexample and witness. -/
def c7User : User :=
  { Username := "alice", Domain := "example.com", PasswordHash := "secret" }

def c7Req : Message :=
  { isRequest := true, Method := "REGISTER", RequestURI := "sip:example.com" }

/-- The digest the registrar computes for `c7User`'s REGISTER with nonce
`n1` and no qop. -/
def c7Expected : String :=
  md5Hex (ComputeHA1 "alice" "example.com" "secret" ++ ":n1:" ++
    md5Hex "REGISTER:sip:example.com")

/-- Digest parameters carrying the UPPERCASE hex of the expected digest. -/
def c7ParamsUpper : AuthParams :=
  [("username", "alice"), ("realm", "example.com"), ("nonce", "n1"),
   ("response", goToUpper c7Expected)]

/-- Digest parameters carrying the expected digest verbatim. -/
def c7ParamsLower : AuthParams :=
  [("username", "alice"), ("realm", "example.com"), ("nonce", "n1"),
   ("response", c7Expected)]

/-- A stored INVITE whose CSeq number is 0 (C6 counterexample). -/
def invite0 : Message :=
  { isRequest := true
    Method := "INVITE"
    RequestURI := "sip:bob@example.com"
    Headers :=
      [("Via", ["SIP/2.0/UDP proxy.local;branch=b6"]),
       ("Cseq", ["0 INVITE"]),
       ("Call-Id", ["c6"]),
       ("From", ["<sip:alice@example.com>;tag=1"]),
       ("To", ["<sip:bob@example.com>"])] }

def c6Data : TransactionData :=
  { id := "INVITE|b6", branch := "b6", method := "INVITE", request := invite0 }

/-- A client-transaction state whose only entry is an INVITE in Proceeding
with an elapsed timer-C deadline (C6). -/
def c6State : TransactionLayerState :=
  { clientTxns :=
      [("INVITE|b6",
        { txn := ClientTxn.invite c6Data InviteClientState.Proceeding "stid"
          timerCDeadline := some 100 })] }

/-- A client-transaction state whose only entry is an INVITE in Proceeding
with an elapsed timer-C deadline and a timer-B deadline that is set but not
yet due (C6 witness). -/
def c6StateB : TransactionLayerState :=
  { clientTxns :=
      [("INVITE|b6",
        { txn := ClientTxn.invite c6Data InviteClientState.Proceeding "stid"
          deadline := some 900
          timerCDeadline := some 100 })] }

/-- A resolver oracle standing for `net.ResolveUDPAddr` (C9 witness). -/
def c9Resolve : String → Option UDPAddr := fun hostPort =>
  if hostPort = "1.2.3.4:5070" then some "udp:1.2.3.4:5070"
  else if hostPort = "5.6.7.8:5080" then some "udp:5.6.7.8:5080"
  else if hostPort = "example.com:5060" then some "udp:example.com:5060"
  else none

/-- Routing state with a managed domain, one registrar binding and one
directory entry (C9). -/
def c9Stack : RoutingStack :=
  { managedDomains := ["example.com"]
    directory :=
      [("bob@example.com",
        { Username := "bob", Domain := "example.com"
          ContactURI := "sip:b@5.6.7.8:5080" })]
    registrarBindings :=
      [("alice@example.com",
        [{ contact := "<sip:a@1.2.3.4:5070>;expires=600", expires := 500 }])]
    upstreamAddr := some "udp:default" }

def c9Msg : Message :=
  { isRequest := true, Method := "INVITE", RequestURI := "sip:alice@example.com" }

/-- A request for a user that has no registrar binding but a directory
entry (C9 witness, spec step 3). -/
def c9MsgB : Message :=
  { isRequest := true, Method := "INVITE", RequestURI := "sip:bob@example.com" }

/-- Analysis helper (C1): the branch a fork response is stripped with, and
the via-stripped response itself. -/
def stripEvent (forks : List BroadcastFork) (e : String × Message) : Message :=
  removeTopViaWithBranch e.2
    (((findFork forks e.1).map BroadcastFork.branch).getD "")

/-- Analysis helper (C1): the earliest event attaining the maximal status
(later events replace the current best only when strictly greater, exactly as
`handleBroadcastResponse` updates `bestStatus`). -/
def firstMaxEvent : List (String × Message) → Option (String × Message)
  | [] => none
  | e :: rest =>
    match firstMaxEvent rest with
    | none => some e
    | some f => if f.2.StatusCode > e.2.StatusCode then some f else some e

/-- Analysis helper (C1): the best-failure accumulator value after a list of
fork responses. -/
def bestStateOf (forks : List BroadcastFork) (evs : List (String × Message)) :
    Int × Option Message :=
  match firstMaxEvent evs with
  | none => (-1, none)
  | some e => (e.2.StatusCode, some (stripEvent forks e))

/-- Fork-flag update after the forks named in `ids` have received finals. -/
def finalizeForks (ids : List String) (forks : List BroadcastFork) :
    List BroadcastFork :=
  forks.map fun f =>
    if f.clientTxID ∈ ids then { f with final := true } else f

/-- Two forks, a broadcast session and two tying 486 finals (C1). -/
def cxForkA : BroadcastFork :=
  { clientTxID := "INVITE|ba", branch := "ba", requestURI := "sip:a@h1" }

def cxForkB : BroadcastFork :=
  { clientTxID := "INVITE|bb", branch := "bb", requestURI := "sip:b@h2" }

def cxSession : BroadcastSession := { forks := [cxForkA, cxForkB] }

def cxRespA : Message :=
  { StatusCode := 486, ReasonPhrase := "First"
    Headers := [("Cseq", ["1 INVITE"])] }

def cxRespB : Message :=
  { StatusCode := 486, ReasonPhrase := "Second"
    Headers := [("Cseq", ["1 INVITE"])] }

def cxEvents : List (String × Message) :=
  [("INVITE|ba", cxRespA), ("INVITE|bb", cxRespB)]

/-! ## Theorems -/

theorem goEqualFold_self (a : String) : goEqualFold a a = true := by
  simp [goEqualFold]

theorem find_map_set (hs : List (String × List String)) (k : String)
    (vs : List String) (h : hs.any (fun p => p.1 == k) = true) :
    List.find? (fun p => p.1 == k)
      (hs.map fun p => if p.1 == k then (k, vs) else p) = some (k, vs) := by
  induction hs with
  | nil => simp at h
  | cons p t ih =>
    rw [List.map_cons]
    by_cases hp : p.1 = k
    · have he : (if p.1 == k then (k, vs) else p) = (k, vs) := by simp [hp]
      rw [he, List.find?_cons_of_pos _ (by simp)]
    · have he : (if p.1 == k then (k, vs) else p) = p := by simp [hp]
      rw [he, List.find?_cons_of_neg _ (by simp [hp])]
      exact ih (by simpa [List.any_cons, hp] using h)

theorem find_set_miss (hs : List (String × List String)) (k k₂ : String)
    (vs : List String) (hne : ¬ k₂ = k) :
    List.find? (fun p => p.1 == k)
      (hs.map fun p => if p.1 == k₂ then (k₂, vs) else p) =
    List.find? (fun p => p.1 == k) hs := by
  induction hs with
  | nil => simp
  | cons p t ih =>
    rw [List.map_cons]
    by_cases hp : p.1 = k₂
    · have he : (if p.1 == k₂ then (k₂, vs) else p) = (k₂, vs) := by simp [hp]
      rw [he, List.find?_cons_of_neg _ (by simpa using hne),
        List.find?_cons_of_neg _ (by simp [hp, hne]), ih]
    · have he : (if p.1 == k₂ then (k₂, vs) else p) = p := by simp [hp]
      rw [he]
      by_cases hpk : p.1 = k
      · rw [List.find?_cons_of_pos _ (by simpa using hpk),
          List.find?_cons_of_pos _ (by simpa using hpk)]
      · rw [List.find?_cons_of_neg _ (by simpa using hpk),
          List.find?_cons_of_neg _ (by simpa using hpk), ih]

theorem hdrFind_hdrSet_self (hs : List (String × List String)) (k : String)
    (vs : List String) : hdrFind (hdrSet hs k vs) k = some vs := by
  unfold hdrSet hdrFind
  by_cases hany : hs.any (fun p => p.1 == k) = true
  · rw [if_pos hany, find_map_set hs k vs hany]
  · rw [if_neg hany, List.find?_append]
    have h₁ : hs.find? (fun p => p.1 == k) = none := by
      rw [List.find?_eq_none]
      intro p hp
      by_contra hc
      exact hany (List.any_eq_true.mpr ⟨p, hp, by simpa using hc⟩)
    rw [h₁]
    simp

theorem map_set_eq_self {α : Type} (t : List (String × α)) (k : String)
    (v : String × α) (h : ∀ q ∈ t, ¬ q.1 = k) :
    (t.map fun q => if q.1 == k then v else q) = t := by
  induction t with
  | nil => rfl
  | cons q r ih =>
    rw [List.map_cons]
    have hq : ¬ q.1 = k := h q (List.mem_cons_self q r)
    have he : (if q.1 == k then v else q) = q := by simp [hq]
    rw [he, ih fun x hx => h x (List.mem_cons_of_mem q hx)]

theorem any_of_find_some (hs : List (String × List String)) (k : String)
    (vs : List String) (h : hdrFind hs k = some vs) :
    hs.any (fun p => p.1 == k) = true := by
  unfold hdrFind at h
  cases hf : hs.find? (fun p => p.1 == k) with
  | none => rw [hf] at h; simp at h
  | some q =>
    have hq := List.find?_some hf
    have hmem := List.mem_of_find?_eq_some hf
    exact List.any_eq_true.mpr ⟨q, hmem, hq⟩

theorem hdrSet_restore (hs : List (String × List String)) (k : String)
    (vs w : List String) (hnodup : (hs.map Prod.fst).Nodup)
    (hfind : hdrFind hs k = some vs) :
    hdrSet (hdrSet hs k w) k vs = hs := by
  induction hs with
  | nil => simp [hdrFind] at hfind
  | cons p t ih =>
    by_cases hp : p.1 = k
    · have hvs : vs = p.2 := by
        unfold hdrFind at hfind
        rw [List.find?_cons_of_pos _ (by simpa using hp)] at hfind
        simpa using hfind.symm
      have hnot : ∀ q ∈ t, ¬ q.1 = k := by
        intro q hq hqk
        rw [List.map_cons, List.nodup_cons] at hnodup
        exact hnodup.1 (hp ▸ hqk ▸ List.mem_map_of_mem Prod.fst hq)
      have hany₁ : ((p :: t).any fun q => q.1 == k) = true := by
        simp [List.any_cons, hp]
      have hany₂ : ((((k, w) : String × List String) :: t).any
          fun q => q.1 == k) = true := by
        simp [List.any_cons]
      have hinner : hdrSet (p :: t) k w = (k, w) :: t := by
        unfold hdrSet
        rw [if_pos hany₁, List.map_cons]
        have he : (if p.1 == k then (k, w) else p) = (k, w) := by simp [hp]
        rw [he, map_set_eq_self t k (k, w) hnot]
      have houter : hdrSet (((k, w) : String × List String) :: t) k vs =
          (k, vs) :: t := by
        unfold hdrSet
        rw [if_pos hany₂, List.map_cons]
        have he : (if ((k, w) : String × List String).1 == k then (k, vs)
            else (k, w)) = (k, vs) := by simp
        rw [he, map_set_eq_self t k (k, vs) hnot]
      rw [hinner, houter]
      have hpeq : p = (k, vs) := by
        cases p with
        | mk a b =>
          simp only at hp hvs
          rw [hp, hvs]
      rw [hpeq]
    · have hfindT : hdrFind t k = some vs := by
        unfold hdrFind at hfind ⊢
        rw [List.find?_cons_of_neg _ (by simpa using hp)] at hfind
        exact hfind
      have hanyT := any_of_find_some t k vs hfindT
      have hnodupT : (t.map Prod.fst).Nodup := by
        rw [List.map_cons, List.nodup_cons] at hnodup
        exact hnodup.2
      have ihT := ih hnodupT hfindT
      have hany₁ : ((p :: t).any fun q => q.1 == k) = true := by
        simp [List.any_cons, hanyT]
      have hanyM : ((t.map fun q => if q.1 == k then (k, w) else q).any
          fun q => q.1 == k) = true := by
        have hmem := List.mem_of_find?_eq_some (find_map_set t k w hanyT)
        exact List.any_eq_true.mpr ⟨(k, w), hmem, by simp⟩
      have hany₂ : ((p :: (t.map fun q => if q.1 == k then (k, w) else q)).any
          fun q => q.1 == k) = true := by
        simp only [List.any_cons, hanyM, Bool.or_true]
      have hinnerT : hdrSet t k w = t.map fun q => if q.1 == k then (k, w) else q := by
        unfold hdrSet
        rw [if_pos hanyT]
      have houterT : hdrSet (t.map fun q => if q.1 == k then (k, w) else q) k vs =
          (t.map fun q => if q.1 == k then (k, w) else q).map
            fun q => if q.1 == k then (k, vs) else q := by
        unfold hdrSet
        rw [if_pos hanyM]
      have step : ((t.map fun q => if q.1 == k then (k, w) else q).map
          fun q => if q.1 == k then (k, vs) else q) = t := by
        have h₂ := ihT
        rw [hinnerT, houterT] at h₂
        exact h₂
      have hinner : hdrSet (p :: t) k w =
          p :: (t.map fun q => if q.1 == k then (k, w) else q) := by
        unfold hdrSet
        rw [if_pos hany₁, List.map_cons]
        have he : (if p.1 == k then (k, w) else p) = p := by simp [hp]
        rw [he]
      have houter : hdrSet (p :: (t.map fun q => if q.1 == k then (k, w) else q)) k vs =
          p :: t := by
        unfold hdrSet
        rw [if_pos hany₂, List.map_cons]
        have he : (if p.1 == k then (k, vs) else p) = p := by simp [hp]
        rw [he, step]
      rw [hinner, houter]

theorem filter_map_set (hs : List (String × List String)) (k : String)
    (vs : List String) :
    ((hs.map fun p => if p.1 == k then (k, vs) else p).filter
      fun p => ¬ p.1 == k) = hs.filter fun p => ¬ p.1 == k := by
  induction hs with
  | nil => rfl
  | cons p t ih =>
    rw [List.map_cons]
    by_cases hp : p.1 = k
    · simp only [List.filter_cons]
      have h₁ : (decide ¬((if p.1 == k then (k, vs) else p).1 == k) = true) = false := by
        simp [hp]
      have h₂ : (decide ¬(p.1 == k) = true) = false := by simp [hp]
      rw [h₁, h₂]
      simp only [Bool.false_eq_true, if_false]
      exact ih
    · simp only [List.filter_cons]
      have h₁ : (decide ¬((if p.1 == k then (k, vs) else p).1 == k) = true) = true := by
        simp [hp]
      have h₂ : (decide ¬(p.1 == k) = true) = true := by simp [hp]
      rw [h₁, h₂]
      simp only [if_true]
      have he : (if p.1 == k then (k, vs) else p) = p := by simp [hp]
      rw [he, ih]

theorem hdrDel_hdrSet_self (hs : List (String × List String)) (k : String)
    (vs : List String) : hdrDel (hdrSet hs k vs) k = hdrDel hs k := by
  unfold hdrSet hdrDel
  by_cases hany : hs.any (fun p => p.1 == k) = true
  · rw [if_pos hany]
    exact filter_map_set hs k vs
  · rw [if_neg hany, List.filter_append]
    have h : List.filter (fun p => ¬ p.1 == k) [((k, vs) : String × List String)] = [] := by
      simp
    rw [h, List.append_nil]

theorem hdrDel_eq_self_of_find_none (hs : List (String × List String))
    (k : String) (h : hdrFind hs k = none) : hdrDel hs k = hs := by
  unfold hdrDel
  have hall : ∀ p ∈ hs, ¬ p.1 = k := by
    unfold hdrFind at h
    cases hf : hs.find? (fun p => p.1 == k) with
    | some q => rw [hf] at h; simp at h
    | none =>
      have h₂ := List.find?_eq_none.mp hf
      intro p hp hpk
      exact absurd (by simpa using hpk) (by simpa using h₂ p hp)
  rw [List.filter_eq_self.mpr]
  intro p hp
  simpa using hall p hp

theorem HeaderValues_SetHeader_self (m : Message) (name : String)
    (vs : List String) : (m.SetHeader name vs).HeaderValues name = vs := by
  unfold Message.SetHeader Message.HeaderValues
  simp [hdrFind_hdrSet_self]

theorem GetHeader_SetHeader_self (m : Message) (name : String)
    (vs : List String) : (m.SetHeader name vs).GetHeader name = vs.headD "" := by
  unfold Message.GetHeader
  rw [HeaderValues_SetHeader_self]

/-- C5: for a forwarded request whose Max-Forwards header holds a
non-negative integer `n`, the forwarded request carries `n - 1` (clamped so
it never drops below 0), and an absent Max-Forwards header makes forwarding
a no-op on the message. -/
theorem decrementMaxForwards_spec (m : Message) :
    (m.GetHeader "Max-Forwards" = "" → decrementMaxForwards m = m) ∧
    (∀ n : Int, goAtoi (goTrimSpace (m.GetHeader "Max-Forwards")) = some n →
      0 ≤ n →
      (decrementMaxForwards m).GetHeader "Max-Forwards" =
        goItoa (if 0 < n then n - 1 else n) ∧
      0 ≤ (if 0 < n then n - 1 else n)) := by
  constructor
  · intro h
    unfold decrementMaxForwards
    rw [h]
    have hz : goTrimSpace "" = "" := by decide
    rw [if_pos hz]
  · intro n hn h0
    unfold decrementMaxForwards
    have hraw : goTrimSpace (m.GetHeader "Max-Forwards") ≠ "" := by
      intro hc
      rw [hc] at hn
      simp [goAtoi, decimalValue] at hn
    rw [if_neg hraw, hn]
    constructor
    · simp only
      rw [GetHeader_SetHeader_self]
      have : (if n > 0 then n - 1 else n) = (if 0 < n then n - 1 else n) := rfl
      simp [this]
    · by_cases hpos : 0 < n
      · simp [hpos]
        omega
      · simp [hpos]
        exact h0

/-- Witness for C5 at `sampleInvite` (Max-Forwards: 70). -/
theorem decrementMaxForwards_spec_witness :
    (decrementMaxForwards sampleInvite).GetHeader "Max-Forwards" =
      goItoa (69 : Int) :=
  by
    have h := (decrementMaxForwards_spec sampleInvite).2 70 (by decide) (by decide)
    have he : (if (0 : Int) < 70 then (70 : Int) - 1 else 70) = 69 := by decide
    rw [he] at h
    exact h.1

/-- C4 counterexample: the round trip fails for the empty branch (removal
refuses empty branches) and for a branch containing `;` (the inserted Via
parses back a different branch value), so it does not hold for every branch
string. -/
theorem via_roundtrip_counterexample :
    removeTopViaWithBranch (prependVia viaMsg "") "" ≠ viaMsg ∧
    removeTopViaWithBranch (prependVia viaMsg "x;y") "x;y" ≠ viaMsg := by
  constructor
  · decide
  · decide

/-- C4 (amended): for every message with a well-formed header table and every
non-empty branch that parses back unchanged from the inserted Via value
(no `;`, surrounding quotes or whitespace), prepending the proxy Via and then
removing the topmost Via with that branch restores the message exactly;
removal deletes exactly the first matching value and deletes the Via header
when nothing remains. -/
theorem via_roundtrip (m : Message) (branch : String)
    (hwf : HeadersWellFormed m) (hb : branch ≠ "")
    (hparse : viaBranch (proxyViaValue branch) = branch) :
    removeTopViaWithBranch (prependVia m branch) branch = m := by
  have hvals : (prependVia m branch).HeaderValues "Via" =
      proxyViaValue branch :: m.HeaderValues "Via" := by
    unfold prependVia
    exact HeaderValues_SetHeader_self m "Via" _
  unfold removeTopViaWithBranch
  rw [if_neg hb, hvals]
  have hdrop : dropFirstViaWithBranch branch
      (proxyViaValue branch :: m.HeaderValues "Via") = m.HeaderValues "Via" := by
    unfold dropFirstViaWithBranch
    rw [hparse, goEqualFold_self]
    simp
  simp only [hdrop]
  by_cases hvs : m.HeaderValues "Via" = []
  · rw [if_pos hvs]
    have hfindNone : hdrFind m.Headers (canonicalHeader "Via") = none := by
      cases hf : hdrFind m.Headers (canonicalHeader "Via") with
      | none => rfl
      | some l =>
        have hl : l = [] := by
          have : m.HeaderValues "Via" = l := by
            unfold Message.HeaderValues
            rw [hf]
            rfl
          rw [← this, hvs]
        unfold hdrFind at hf
        cases hff : m.Headers.find? (fun p => p.1 == canonicalHeader "Via") with
        | none => rw [hff] at hf; simp at hf
        | some q =>
          rw [hff] at hf
          have hq : q.2 = l := by simpa using hf
          have hmem := List.mem_of_find?_eq_some hff
          exact absurd (hq.trans hl) (hwf.2 q hmem)
    show (prependVia m branch).DelHeader "Via" = m
    unfold prependVia Message.DelHeader Message.SetHeader
    cases m with
    | mk ir me ru pr sc re hs bo =>
      simp only [Message.mk.injEq, and_true, true_and]
      rw [hdrDel_hdrSet_self]
      exact hdrDel_eq_self_of_find_none hs (canonicalHeader "Via") hfindNone
  · rw [if_neg hvs]
    have hfindSome : hdrFind m.Headers (canonicalHeader "Via") =
        some (m.HeaderValues "Via") := by
      unfold Message.HeaderValues at hvs ⊢
      cases hf : hdrFind m.Headers (canonicalHeader "Via") with
      | none => rw [hf] at hvs; simp at hvs
      | some l => simp [hf]
    show (prependVia m branch).SetHeader "Via" (m.HeaderValues "Via") = m
    unfold prependVia Message.SetHeader
    cases m with
    | mk ir me ru pr sc re hs bo =>
      simp only [Message.mk.injEq, and_true, true_and]
      exact hdrSet_restore hs (canonicalHeader "Via") _ _ hwf.1 hfindSome

/-- Witness for the amended C4 round trip at a concrete message and branch. -/
theorem via_roundtrip_witness :
    removeTopViaWithBranch (prependVia viaMsg "z9hG4bKp7") "z9hG4bKp7" = viaMsg :=
  via_roundtrip viaMsg "z9hG4bKp7"
    (by exact ⟨by decide, by decide⟩) (by decide) (by decide)

theorem hdrSet_eq_self (hs : List (String × List String)) (k : String)
    (vs : List String) (hnodup : (hs.map Prod.fst).Nodup)
    (hfind : hdrFind hs k = some vs) : hdrSet hs k vs = hs := by
  induction hs with
  | nil => simp [hdrFind] at hfind
  | cons p t ih =>
    by_cases hp : p.1 = k
    · have hvs : vs = p.2 := by
        unfold hdrFind at hfind
        rw [List.find?_cons_of_pos _ (by simpa using hp)] at hfind
        simpa using hfind.symm
      have hnot : ∀ q ∈ t, ¬ q.1 = k := by
        intro q hq hqk
        rw [List.map_cons, List.nodup_cons] at hnodup
        exact hnodup.1 (hp ▸ hqk ▸ List.mem_map_of_mem Prod.fst hq)
      have hany : ((p :: t).any fun q => q.1 == k) = true := by
        simp [List.any_cons, hp]
      unfold hdrSet
      rw [if_pos hany, List.map_cons]
      have he : (if p.1 == k then (k, vs) else p) = p := by
        have : p = (k, vs) := by
          cases p with
          | mk a b =>
            simp only at hp hvs
            rw [hp, hvs]
        simp [this]
      rw [he, map_set_eq_self t k (k, vs) hnot]
    · have hfindT : hdrFind t k = some vs := by
        unfold hdrFind at hfind ⊢
        rw [List.find?_cons_of_neg _ (by simpa using hp)] at hfind
        exact hfind
      have hanyT := any_of_find_some t k vs hfindT
      have hnodupT : (t.map Prod.fst).Nodup := by
        rw [List.map_cons, List.nodup_cons] at hnodup
        exact hnodup.2
      have hany : ((p :: t).any fun q => q.1 == k) = true := by
        simp [List.any_cons, hanyT]
      have ihT := ih hnodupT hfindT
      unfold hdrSet at ihT ⊢
      rw [if_pos hany, List.map_cons]
      have he : (if p.1 == k then (k, vs) else p) = p := by simp [hp]
      rw [he]
      rw [if_pos hanyT] at ihT
      rw [ihT]

/-- `EnsureContentLength` is the identity on a message whose Content-Length
header is already the body's byte length (unique keys assumed, as for every
Go map). -/
theorem ensureContentLength_eq_self (m : Message)
    (hnodup : (m.Headers.map Prod.fst).Nodup)
    (hcl : hdrFind m.Headers "Content-Length" =
      some [goItoa (Int.ofNat m.Body.utf8ByteSize)]) :
    m.EnsureContentLength = m := by
  unfold Message.EnsureContentLength Message.SetHeader
  have hcanon : canonicalHeader "Content-Length" = "Content-Length" := by decide
  rw [hcanon]
  cases m with
  | mk ir me ru pr sc re hs bo =>
    simp only [Message.mk.injEq, and_true, true_and]
    exact hdrSet_eq_self hs "Content-Length" _ hnodup hcl

theorem assoc_any_of_get_some {α : Type} (l : List (String × α)) (k : String)
    (x : α) (h : (List.find? (fun p => p.1 == k) l).map Prod.snd = some x) :
    l.any (fun p => p.1 == k) = true := by
  cases hf : l.find? (fun p => p.1 == k) with
  | none => rw [hf] at h; simp at h
  | some q =>
    have hq : (q.1 == k) = true := by
      have h₂ := List.find?_some hf
      simpa using h₂
    exact List.any_eq_true.mpr ⟨q, List.mem_of_find?_eq_some hf, hq⟩

theorem assocSet_keys {α : Type} (l : List (String × α)) (k : String) (v : α)
    (hany : l.any (fun p => p.1 == k) = true) :
    ((if l.any (fun p => p.1 == k) then
        l.map (fun p => if p.1 == k then (k, v) else p)
      else l ++ [(k, v)]).map Prod.fst) = l.map Prod.fst := by
  rw [if_pos hany, List.map_map]
  apply List.map_congr_left
  intro p _
  by_cases hpk : p.1 = k
  · simp [hpk]
  · simp [hpk]

/-- C2: a downstream request whose (method, branch) matches an existing server
transaction creates no new transaction and publishes no TU notification; if a
final response is cached, exactly one copy of it is re-sent downstream (with
its Content-Length refreshed, a no-op on well-formed caches) and the
retention deadline is refreshed; with no cache, nothing at all is emitted. -/
theorem handleRequest_retransmission
    (now : Int) (st : TransactionLayerState) (req : Message)
    (entry : ServerTransactionEntry)
    (hbranch : topViaBranch req ≠ "")
    (hmethod : goToUpper req.Method ≠ "ACK")
    (hfound : stGet st.serverTxns
      (transactionKey (topViaBranch req) (goToUpper req.Method)) = some entry) :
    (handleRequest now st req).1.serverTxns =
      stSet st.serverTxns (transactionKey (topViaBranch req) (goToUpper req.Method))
        { entry with expires := now + st.config.serverTransactionRetention } ∧
    (handleRequest now st req).1.serverTxns.map Prod.fst =
      st.serverTxns.map Prod.fst ∧
    (handleRequest now st req).1.clientTxns = st.clientTxns ∧
    (∀ e : TuEvent, TLOut.tu e ∉ (handleRequest now st req).2) ∧
    (handleRequest now st req).2 =
      (match entry.txn.data.lastResponse with
       | some r => [sendToTransport .downstream r]
       | none => []) ∧
    (∀ r, entry.txn.data.lastResponse = some r →
      (r.Headers.map Prod.fst).Nodup →
      hdrFind r.Headers "Content-Length" =
        some [goItoa (Int.ofNat r.Body.utf8ByteSize)] →
      (handleRequest now st req).2 =
        [TLOut.transport { direction := .downstream, message := r }]) := by
  have hkey :
      handleRequest now st req =
        (⟨st.config,
          stSet st.serverTxns (transactionKey (topViaBranch req) (goToUpper req.Method))
            ({ entry with expires := now + st.config.serverTransactionRetention }),
          st.clientTxns⟩,
         (match entry.txn.data.lastResponse with
          | some r => [sendToTransport .downstream r]
          | none => [])) := by
    unfold handleRequest
    rw [if_neg hbranch, if_neg hmethod]
    dsimp only
    rw [hfound]
  refine ⟨by rw [hkey], ?_, by rw [hkey], ?_, by rw [hkey], ?_⟩
  · rw [hkey]
    have hany : st.serverTxns.any
        (fun p => p.1 == transactionKey (topViaBranch req) (goToUpper req.Method)) = true := by
      apply assoc_any_of_get_some st.serverTxns _ entry
      unfold stGet at hfound
      exact hfound
    unfold stSet
    exact assocSet_keys st.serverTxns _ _ hany
  · intro e
    rw [hkey]
    cases entry.txn.data.lastResponse with
    | none => simp
    | some r => simp [sendToTransport]
  · intro r hr hnodup hcl
    rw [hkey, hr]
    simp only [sendToTransport]
    rw [ensureContentLength_eq_self r hnodup hcl]

/-- Witness for C2: a retransmitted INVITE against `c2State` re-emits the
cached 200 exactly once, refreshes retention, and posts nothing to the TU. -/
theorem handleRequest_retransmission_witness :
    (handleRequest 500 c2State sampleInvite).2 =
      [TLOut.transport { direction := .downstream, message := cachedOK }] ∧
    (handleRequest 500 c2State sampleInvite).1.serverTxns.map Prod.fst =
      c2State.serverTxns.map Prod.fst := by
  have h := handleRequest_retransmission 500 c2State sampleInvite
    ((c2State.serverTxns.headD ("", { txn := ServerTxn.invite {} .Proceeding })).2)
    (by decide) (by decide) (by decide)
  exact ⟨h.2.2.2.2.2 cachedOK (by decide) (by decide) (by decide), h.2.1⟩

/-- A kept entry of the per-entry server cleanup step keeps its key. -/
theorem cleanupServerEntry_key (cfg : TransactionLayerConfig) (now : Int)
    (p q : String × ServerTransactionEntry)
    (h : (cleanupServerEntry cfg now p).1 = some q) : q.1 = p.1 := by
  obtain ⟨key, entry⟩ := p
  unfold cleanupServerEntry at h
  dsimp only at h
  split at h
  · exact absurd h (by simp)
  · split at h
    · split at h
      · simp at h
        rw [← h]
      · simp at h
        rw [← h]
    · split at h
      · exact absurd h (by simp)
      · simp at h
        rw [← h]

/-- After `stSet`, every pair carrying the written key is the written pair. -/
theorem stSet_mem_eq (l : ServerTxns) (k : String) (v : ServerTransactionEntry)
    (p : String × ServerTransactionEntry) (hp : p ∈ stSet l k v)
    (hk : p.1 = k) : p = (k, v) := by
  unfold stSet at hp
  by_cases hany : List.any l (fun p => p.1 == k) = true
  · rw [if_pos hany] at hp
    obtain ⟨q, hq, hqe⟩ := List.mem_map.mp hp
    by_cases hqk : q.1 = k
    · rw [if_pos (by simp [hqk])] at hqe
      exact hqe.symm
    · rw [if_neg (by simp [hqk])] at hqe
      rw [← hqe] at hk
      exact absurd hk hqk
  · rw [if_neg hany] at hp
    rcases List.mem_append.mp hp with hl | hr
    · exfalso
      exact hany (List.any_eq_true.mpr ⟨p, hl, by simp [hk]⟩)
    · simpa using hr

theorem cleanupFold_cons (step : (String × α) → Option (String × α) × List TLOut)
    (p : String × α) (rest : List (String × α)) :
    cleanupFold step (p :: rest) =
      ((match (step p).1 with
        | some q => q :: (cleanupFold step rest).1
        | none => (cleanupFold step rest).1),
       (step p).2 ++ (cleanupFold step rest).2) := rfl

/-- If the step deletes every entry under a key, the folded table has no
entry under that key. -/
theorem cleanupFold_find_none
    (step : (String × α) → Option (String × α) × List TLOut) (key : String)
    (hkeys : ∀ p q, (step p).1 = some q → q.1 = p.1)
    (l : List (String × α))
    (h : ∀ p ∈ l, p.1 = key → (step p).1 = none) :
    List.find? (fun q => q.1 == key) (cleanupFold step l).1 = none := by
  induction l with
  | nil => rfl
  | cons p rest ih =>
    rw [cleanupFold_cons]
    by_cases hk : p.1 = key
    · rw [h p (List.mem_cons_self p rest) hk]
      dsimp only
      exact ih fun x hx hxk => h x (List.mem_cons_of_mem _ hx) hxk
    · cases hs : (step p).1 with
      | none =>
        dsimp only
        exact ih fun x hx hxk => h x (List.mem_cons_of_mem _ hx) hxk
      | some q =>
        dsimp only
        rw [List.find?_cons_of_neg _ (by simp [hkeys p q hs, hk])]
        exact ih fun x hx hxk => h x (List.mem_cons_of_mem _ hx) hxk

theorem cleanupTransactions_serverTxns (now : Int) (st : TransactionLayerState) :
    (cleanupTransactions now st).1.serverTxns =
      (cleanupFold (cleanupServerEntry st.config now) st.serverTxns).1 := rfl

/-- C3 counterexample: after the TU sends a 2xx final for an INVITE server
transaction, the transaction entry is still present in the registry — it is
not destroyed immediately as the claim states. -/
theorem invite2xx_not_destroyed_counterexample :
    stGet (handleTUAction "" 500 c2State c3Action).1.serverTxns
      "INVITE|z9hG4bKclient1" ≠ none := by decide

/-- C3 (amended): on a 2xx final sent by the TU for an INVITE server
transaction the state machine moves directly to Terminated, but the registry
entry is retained — with a termination deadline of timer H and no
retransmission schedule — rather than being removed immediately; a cleanup
tick after that deadline deletes the entry. -/
theorem invite2xx_terminated_retained
    (freshBranch : String) (now : Int) (st : TransactionLayerState)
    (action : TuAction) (msg : Message) (entry : ServerTransactionEntry)
    (d : TransactionData) (istate : InviteServerState)
    (hkind : action.kind = .sendResponse)
    (hmsg : action.message = some msg)
    (hstatus : 200 ≤ msg.StatusCode ∧ msg.StatusCode < 300)
    (hfound : stGet st.serverTxns action.serverTxID = some entry)
    (htxn : entry.txn = .invite d istate) :
    (handleTUAction freshBranch now st action).1.serverTxns =
      stSet st.serverTxns action.serverTxID
        ({ entry with
           txn := ServerTxn.invite { d with lastResponse := some msg }
             InviteServerState.Terminated
           expires := now + st.config.serverTransactionRetention
           deadline := some (now + st.config.timerH)
           retransmitInterval := 0
           retransmitAt := none }) ∧
    (handleTUAction freshBranch now st action).2 =
      [sendToTransport .downstream msg] ∧
    (∀ t : Int, now + st.config.timerH < t →
      stGet (cleanupTransactions t
          (handleTUAction freshBranch now st action).1).1.serverTxns
        action.serverTxID = none) := by
  have h1 : ¬ msg.StatusCode < 200 := by omega
  have h2 : msg.StatusCode < 300 := hstatus.2
  have h3 : ¬ 300 ≤ msg.StatusCode := by omega
  have h4 : 200 ≤ msg.StatusCode := hstatus.1
  unfold handleTUAction
  rw [hkind, hmsg]
  dsimp only
  rw [hfound]
  dsimp only
  rw [htxn]
  simp only [ServerTxn.setLastResponse, ServerTxn.onSendResponse]
  rw [if_neg h1, if_pos h2, if_pos h4]
  simp only [if_neg h3]
  refine ⟨trivial, trivial, ?_⟩
  intro t ht
  rw [cleanupTransactions_serverTxns]
  dsimp only
  unfold stGet
  rw [cleanupFold_find_none _ action.serverTxID
    (cleanupServerEntry_key _ t) _ ?hdel]
  rfl
  case hdel =>
    intro p hp hpk
    have hpe := stSet_mem_eq st.serverTxns action.serverTxID _ p hp hpk
    rw [hpe]
    unfold cleanupServerEntry
    dsimp only
    rw [if_pos ⟨by simp, by simpa using ht⟩]

/-- Witness for the amended C3 at the concrete `c2State`: the entry is
retained under the timer-H deadline, and a cleanup tick one past that
deadline deletes it. -/
theorem invite2xx_terminated_retained_witness :
    ((handleTUAction "" 500 c2State c3Action).1.serverTxns =
      stSet c2State.serverTxns "INVITE|z9hG4bKclient1"
        ({ txn := ServerTxn.invite
             { id := "INVITE|z9hG4bKclient1"
               branch := "z9hG4bKclient1"
               method := "INVITE"
               request := sampleInvite
               lastResponse := some cachedOK }
             InviteServerState.Terminated
           expires := 500 + c2State.config.serverTransactionRetention
           deadline := some (500 + c2State.config.timerH)
           retransmitInterval := 0
           retransmitAt := none })) ∧
    stGet (cleanupTransactions (500 + c2State.config.timerH + 1)
        (handleTUAction "" 500 c2State c3Action).1).1.serverTxns
      "INVITE|z9hG4bKclient1" = none := by
  have h := invite2xx_terminated_retained "" 500 c2State c3Action cachedOK
    ((c2State.serverTxns.headD ("", { txn := ServerTxn.invite {} .Proceeding })).2)
    { id := "INVITE|z9hG4bKclient1"
      branch := "z9hG4bKclient1"
      method := "INVITE"
      request := sampleInvite
      lastResponse := some cachedOK }
    InviteServerState.Proceeding
    rfl rfl (by decide) (by decide) (by decide)
  exact ⟨h.1, h.2.2 (500 + c2State.config.timerH + 1) (by decide)⟩

/-- C8 counterexample: a wildcard Contact with `Expires: -1` — a value other
than 0 — is accepted (the negative value parses as 0): all bindings are
deleted and no 400 is returned, contradicting the claim. -/
theorem wildcard_negative_expires_counterexample :
    (applyRegistration 100 aliceBindings "alice@example.com" wildcardNegReq).2 =
      Except.ok [] ∧
    regGet (applyRegistration 100 aliceBindings "alice@example.com"
      wildcardNegReq).1 "alice@example.com" = [] := by
  constructor
  · rfl
  · rfl

theorem parseExpires_eq_zero_iff (s : String) :
    parseExpires s = 0 ↔
      ∃ n : Int, goAtoi (goTrimSpace s) = some n ∧ n ≤ 0 := by
  unfold parseExpires
  by_cases hraw : goTrimSpace s = ""
  · rw [if_pos hraw]
    constructor
    · intro h; exact absurd h (by decide)
    · rintro ⟨n, hn, _⟩
      rw [hraw] at hn
      simp [goAtoi, decimalValue] at hn
  · rw [if_neg hraw]
    cases ha : goAtoi (goTrimSpace s) with
    | none =>
      constructor
      · intro h; exact absurd h (by decide)
      · rintro ⟨n, hn, _⟩; simp at hn
    | some v =>
      show (if v < 0 then (0 : Int) else v) = 0 ↔ _
      by_cases hv : v < 0
      · rw [if_pos hv]
        exact ⟨fun _ => ⟨v, rfl, by omega⟩, fun _ => rfl⟩
      · rw [if_neg hv]
        constructor
        · intro h; exact ⟨v, rfl, le_of_eq h⟩
        · rintro ⟨n, hn, hle⟩
          have hveq : v = n := by simpa using hn
          omega

/-- C8 (amended): a REGISTER whose only contact is `*` empties the user's
bindings exactly when the parsed Expires value is 0 — which happens iff the
header holds a non-positive integer, negatives being clamped to 0 by
`parseExpires`; for every other value (absent, malformed, or positive) it is
rejected with 400 and the stored bindings are left unchanged. -/
theorem wildcard_spec (now : Int) (st : RegBindings) (key : String)
    (req : Message) (c : String)
    (hc : expandContactValues (req.HeaderValues "Contact") = [c])
    (hwc : goEqualFold (goTrimSpace c) "*" = true) :
    (parseExpires (req.GetHeader "Expires") = 0 ↔
      ∃ n : Int, goAtoi (goTrimSpace (req.GetHeader "Expires")) = some n ∧ n ≤ 0) ∧
    (parseExpires (req.GetHeader "Expires") = 0 →
      applyRegistration now st key req = (regDel st key, Except.ok [])) ∧
    (parseExpires (req.GetHeader "Expires") ≠ 0 →
      applyRegistration now st key req =
        (st, Except.error { status := 400, reason := "Invalid wildcard contact" })) := by
  refine ⟨parseExpires_eq_zero_iff (req.GetHeader "Expires"), ?_, ?_⟩
  · intro hz
    unfold applyRegistration
    rw [hc]
    have hne : ¬ ([c] = ([] : List String)) := by simp
    rw [if_neg hne]
    have hcond : ([c].length = 1 ∧
        goEqualFold (goTrimSpace ([c].headD "")) "*" = true) := by
      simpa using hwc
    rw [if_pos hcond, hz]
    simp
  · intro hnz
    unfold applyRegistration
    rw [hc]
    have hne : ¬ ([c] = ([] : List String)) := by simp
    rw [if_neg hne]
    have hcond : ([c].length = 1 ∧
        goEqualFold (goTrimSpace ([c].headD "")) "*" = true) := by
      simpa using hwc
    rw [if_pos hcond, if_pos hnz]

/-- Witness for the amended C8: `Expires: 0` wildcard empties alice's
bindings; `Expires: -1` parses to 0 as well. -/
theorem wildcard_spec_witness :
    applyRegistration 100 aliceBindings "alice@example.com" wildcardZeroReq =
      (regDel aliceBindings "alice@example.com", Except.ok []) := by
  have h := wildcard_spec 100 aliceBindings "alice@example.com" wildcardZeroReq
    "*" (by decide) (by decide)
  exact h.2.1 (by decide)

/-- C10: a numeric negative expires value — whether from the contact's
`expires` parameter or from the request's Expires header — is clamped to 0 by
`parseExpires`, which makes registration remove any existing binding for that
contact address and add nothing, without an error; a malformed (non-numeric)
value is treated as absent (−1), falling back to the request header and then
to the 3600-second default (last conjunct: the fallback chain in claim
shape). -/
theorem negative_expires_spec :
    (∀ (s : String) (n : Int), goAtoi (goTrimSpace s) = some n → n < 0 →
      parseExpires s = 0) ∧
    (∀ s : String, goAtoi (goTrimSpace s) = none → parseExpires s = -1) ∧
    (∀ (now : Int) (st : RegBindings) (key : String) (req : Message)
      (raw : String),
      expandContactValues (req.HeaderValues "Contact") = [raw] →
      goEqualFold (goTrimSpace raw) "*" = false →
      contactAddress raw ≠ "" →
      applyRegistration now st key req =
        (let purged := (regGet st key).filter fun b => now < b.expires
         let removed := removeBindingByAddress purged (contactAddress raw)
         let e₁ := parseExpires (GetHeaderParam raw "expires")
         let e₂ := if e₁ < 0 then parseExpires (req.GetHeader "Expires") else e₁
         let e₃ := if e₂ < 0 then 3600 else e₂
         let final := if e₃ = 0 then removed
                      else removed ++ [{ contact := normalizeContact raw e₃
                                         expires := now + e₃ }]
         (regSet st key final, Except.ok final))) ∧
    (∀ a d : Int,
      (if (if a < 0 then d else a) < 0 then 3600 else (if a < 0 then d else a)) =
        if a < 0 then (if d < 0 then 3600 else d) else a) := by
  refine ⟨?_, ?_, ?_, ?_⟩
  · intro s n hn hneg
    unfold parseExpires
    have hraw : goTrimSpace s ≠ "" := by
      intro hc
      rw [hc] at hn
      simp [goAtoi, decimalValue] at hn
    rw [if_neg hraw, hn]
    show (if n < 0 then (0 : Int) else n) = 0
    rw [if_pos hneg]
  · intro s hn
    unfold parseExpires
    by_cases hraw : goTrimSpace s = ""
    · rw [if_pos hraw]
    · rw [if_neg hraw, hn]
  · intro now st key req raw hc hwc haddr
    unfold applyRegistration
    rw [hc]
    have hne : ¬ ([raw] = ([] : List String)) := by simp
    rw [if_neg hne]
    have hcond : ¬ (([raw].length = 1 ∧
        goEqualFold (goTrimSpace ([raw].headD "")) "*" = true)) := by
      simp [hwc]
    rw [if_neg hcond]
    have happ : applyContacts now (parseExpires (req.GetHeader "Expires")) [raw]
        ((regGet st key).filter fun b => now < b.expires) =
        Except.ok
          (let purged := (regGet st key).filter fun b => now < b.expires
           let removed := removeBindingByAddress purged (contactAddress raw)
           let e₁ := parseExpires (GetHeaderParam raw "expires")
           let e₂ := if e₁ < 0 then parseExpires (req.GetHeader "Expires") else e₁
           let e₃ := if e₂ < 0 then 3600 else e₂
           if e₃ = 0 then removed
           else removed ++ [{ contact := normalizeContact raw e₃
                              expires := now + e₃ }]) := by
      unfold applyContacts
      rw [if_neg haddr]
      dsimp only
      set e₁ := parseExpires (GetHeaderParam raw "expires") with he₁
      set e₂ := if e₁ < 0 then parseExpires (req.GetHeader "Expires") else e₁
        with he₂
      set e₃ := if e₂ < 0 then (3600 : Int) else e₂ with he₃
      by_cases h0 : e₃ = 0
      · rw [if_pos h0, if_pos h0]
        rfl
      · rw [if_neg h0, if_neg h0]
        rfl
    rw [happ]
  · intro a d
    by_cases ha : a < 0
    · simp [ha]
    · simp [ha]

/-- Witness for C10: a contact with `expires=-2` removes alice's existing
binding for that address and registers nothing, with no error. -/
theorem negative_expires_spec_witness :
    applyRegistration 100 aliceBindings "alice@example.com" negExpiresReq =
      (regSet aliceBindings "alice@example.com" [], Except.ok []) := by
  have h := negative_expires_spec.2.2.1 100 aliceBindings "alice@example.com"
    negExpiresReq "<sip:a@1.2.3.4>;expires=-2" (by rfl) (by rfl) (by decide)
  rw [h]
  rfl

/-- C7 counterexample: an uppercase-hex response digest is accepted although
it does not equal the computed digest string — the comparison is
case-insensitive `strings.EqualFold`, not an equality (and not a
constant-time compare). -/
theorem verifyDigest_counterexample :
    verifyDigest c7ParamsUpper c7Req c7User "example.com" = Except.ok () ∧
    pget c7ParamsUpper "response" ≠ c7Expected := by
  constructor
  · rfl
  · decide

theorem CopyHeaders_StatusCode (src : Message) (names : List String) :
    ∀ dst : Message, (CopyHeaders dst src names).StatusCode = dst.StatusCode := by
  induction names with
  | nil => intro dst; rfl
  | cons n rest ih =>
    intro dst
    unfold CopyHeaders
    simp only [List.foldl_cons]
    by_cases hv : src.HeaderValues n = []
    · rw [if_pos hv]
      exact ih dst
    · rw [if_neg hv]
      exact ih (dst.SetHeader n (src.HeaderValues n))

theorem ensureToTag_StatusCode (m : Message) (tagValue : String) :
    (ensureToTag m tagValue).StatusCode = m.StatusCode := by
  unfold ensureToTag
  by_cases h1 : m.GetHeader "To" = ""
  · rw [if_pos h1]
  · rw [if_neg h1]
    by_cases h2 : goContainsSub (goToLower (m.GetHeader "To")) ";tag=" = true
    · rw [if_pos h2]
    · rw [if_neg h2]
      rfl

theorem registrarResponse_StatusCode (req : Message) (status : Int)
    (reason : String) : (registrarResponse req status reason).StatusCode = status := by
  show (CopyHeaders (NewResponse status reason) req
    ["Via", "From", "To", "Call-ID", "CSeq"]).StatusCode = status
  rw [CopyHeaders_StatusCode]
  rfl

/-- C7 (amended): HA1 is the stored credential lowercased when it is a
32-char hex digest and MD5 of `user:realm:password` otherwise; HA2 is MD5 of
`METHOD:uri`; the request is accepted iff the supplied response digest
matches MD5(HA1:nonce:nc:cnonce:qop:HA2) under qop=auth, or
MD5(HA1:nonce:HA2) with no qop, where the match is the case-insensitive
string comparison `strings.EqualFold` (not a literal equality and not a
constant-time compare); a mismatch makes the registrar answer 403. -/
theorem verifyDigest_spec :
    (∀ u r stored : String, goTrimSpace stored ≠ "" →
      (((goTrimSpace stored).length = 32 ∧ isHex (goTrimSpace stored)) →
        ComputeHA1 u r stored = goToLower (goTrimSpace stored)) ∧
      (¬ ((goTrimSpace stored).length = 32 ∧ isHex (goTrimSpace stored)) →
        ComputeHA1 u r stored =
          md5Hex (u ++ ":" ++ r ++ ":" ++ goTrimSpace stored))) ∧
    (∀ (params : AuthParams) (req : Message) (user : User) (realm : String),
      (pget params "algorithm" = "" ∨
        goEqualFold (pget params "algorithm") "md5" = true) →
      pget params "nonce" ≠ "" →
      pget params "response" ≠ "" →
      ComputeHA1 user.Username realm user.PasswordHash ≠ "" →
      (goToLower (pget params "qop") = "" →
        (verifyDigest params req user realm = Except.ok () ↔
          goEqualFold
            (md5Hex (ComputeHA1 user.Username realm user.PasswordHash ++ ":" ++
              pget params "nonce" ++ ":" ++
              md5Hex (goToUpper req.Method ++ ":" ++
                (if pget params "uri" = "" then req.RequestURI
                 else pget params "uri"))))
            (pget params "response") = true)) ∧
      (goToLower (pget params "qop") = "auth" →
        pget params "nc" ≠ "" →
        pget params "cnonce" ≠ "" →
        (verifyDigest params req user realm = Except.ok () ↔
          goEqualFold
            (md5Hex (ComputeHA1 user.Username realm user.PasswordHash ++ ":" ++
              pget params "nonce" ++ ":" ++ pget params "nc" ++ ":" ++
              pget params "cnonce" ++ ":" ++ "auth" ++ ":" ++
              md5Hex (goToUpper req.Method ++ ":" ++
                (if pget params "uri" = "" then req.RequestURI
                 else pget params "uri"))))
            (pget params "response") = true))) ∧
    (∀ (lookup : String → String → StoreResult) (nonceValue tagValue : String)
      (now : Int) (st : RegBindings) (req : Message)
      (username domain : String) (user : User) (authParams : AuthParams)
      (e : String),
      parseAddressOfRecord (req.GetHeader "To") = some (username, domain) →
      lookup username domain = StoreResult.found user →
      parseDigestAuthorization (req.GetHeader "Authorization") =
        some authParams →
      goEqualFold (pget authParams "username") user.Username = true →
      goEqualFold (if pget authParams "realm" = "" then domain
        else pget authParams "realm") user.Domain = true →
      verifyDigest authParams req user
        (if pget authParams "realm" = "" then domain
         else pget authParams "realm") = Except.error e →
      handleRegister lookup true nonceValue tagValue now st req =
        (st, ensureToTag (registrarResponse req 403 "Forbidden") tagValue) ∧
      (handleRegister lookup true nonceValue tagValue now st req).2.StatusCode
        = 403) := by
  refine ⟨?_, ?_, ?_⟩
  · intro u r stored hne
    unfold ComputeHA1
    constructor
    · intro hhex
      rw [if_neg hne, if_pos hhex]
    · intro hnhex
      rw [if_neg hne, if_neg hnhex]
      rfl
  · intro params req user realm halg hnonce hresp hha1
    have halgC : ¬ (pget params "algorithm" ≠ "" ∧
        ¬ goEqualFold (pget params "algorithm") "md5" = true) := by
      rcases halg with h | h
      · intro hc; exact hc.1 h
      · intro hc; exact hc.2 h
    have hnr : ¬ (pget params "nonce" = "" ∨ pget params "response" = "") := by
      intro hc
      rcases hc with h | h
      · exact hnonce h
      · exact hresp h
    constructor
    · intro hqop
      unfold verifyDigest
      dsimp only
      rw [if_neg halgC, if_neg hnr, if_neg hha1, hqop, if_pos rfl]
      cases hfold : goEqualFold
          (md5Hex (ComputeHA1 user.Username realm user.PasswordHash ++ ":" ++
            pget params "nonce" ++ ":" ++
            md5Hex (goToUpper req.Method ++ ":" ++
              (if pget params "uri" = "" then req.RequestURI
               else pget params "uri"))))
          (pget params "response") with
      | true => simp
      | false => simp
    · intro hqop hnc hcnonce
      unfold verifyDigest
      dsimp only
      have hncc : ¬ (pget params "nc" = "" ∨ pget params "cnonce" = "") := by
        intro hc
        rcases hc with h | h
        · exact hnc h
        · exact hcnonce h
      rw [if_neg halgC, if_neg hnr, if_neg hha1, hqop,
        if_neg (by decide : ¬ ("auth" : String) = ""), if_pos rfl, if_neg hncc]
      cases hfold : goEqualFold
          (md5Hex (ComputeHA1 user.Username realm user.PasswordHash ++ ":" ++
            pget params "nonce" ++ ":" ++ pget params "nc" ++ ":" ++
            pget params "cnonce" ++ ":" ++ "auth" ++ ":" ++
            md5Hex (goToUpper req.Method ++ ":" ++
              (if pget params "uri" = "" then req.RequestURI
               else pget params "uri"))))
          (pget params "response") with
      | true => simp
      | false => simp
  · intro lookup nonceValue tagValue now st req username domain user authParams
      e haor hlookup hauth hname hrealm hverify
    have hmain : handleRegister lookup true nonceValue tagValue now st req =
        (st, ensureToTag (registrarResponse req 403 "Forbidden") tagValue) := by
      unfold handleRegister
      rw [haor]
      dsimp only
      rw [if_neg (by decide : ¬ ¬ true = true)]
      rw [hlookup]
      dsimp only
      rw [hauth]
      dsimp only
      rw [if_neg ?hmatch, hverify]
      case hmatch =>
        intro hc
        rcases hc with h | h
        · exact h hname
        · exact h hrealm
    refine ⟨hmain, ?_⟩
    rw [hmain]
    rw [ensureToTag_StatusCode, registrarResponse_StatusCode]

/-- Witness for the amended C7: the matching (lowercase) digest is accepted. -/
theorem verifyDigest_spec_witness :
    verifyDigest c7ParamsLower c7Req c7User "example.com" = Except.ok () := by
  have h := verifyDigest_spec.2.1 c7ParamsLower c7Req c7User "example.com"
    (Or.inl rfl) (by decide) (by decide) (by decide)
  exact (h.1 rfl).mpr (by rfl)

theorem hdrFind_hdrSet_other (hs : List (String × List String)) (k k₂ : String)
    (vs : List String) (hne : ¬ k₂ = k) :
    hdrFind (hdrSet hs k₂ vs) k = hdrFind hs k := by
  unfold hdrSet hdrFind
  by_cases hany : hs.any (fun p => p.1 == k₂) = true
  · rw [if_pos hany, find_set_miss hs k k₂ vs hne]
  · rw [if_neg hany, List.find?_append]
    have h₂ : List.find? (fun p => p.1 == k) [(k₂, vs)] = none := by
      simp [hne]
    rw [h₂]
    cases hs.find? (fun p => p.1 == k) <;> rfl

theorem HeaderValues_SetHeader_other (m : Message) (name other : String)
    (vs : List String)
    (h : ¬ canonicalHeader name = canonicalHeader other) :
    (m.SetHeader name vs).HeaderValues other = m.HeaderValues other := by
  unfold Message.SetHeader Message.HeaderValues
  rw [hdrFind_hdrSet_other _ _ _ _ h]

theorem SetHeader_Body (m : Message) (n : String) (vs : List String) :
    (m.SetHeader n vs).Body = m.Body := rfl

/-- C6 counterexample: the stored INVITE has CSeq number 0, yet the CANCEL
emitted when timer C fires carries `1 CANCEL` (`formatCSeq` clamps
non-positive numbers to 1) — not the same CSeq number. -/
theorem timerC_cseq_counterexample :
    (cleanupTransactions 200 c6State).2 =
      [sendToTransport .upstream (cancelFromRequest c6Data),
       sendToTU { kind := .response, serverTxID := "stid",
                  clientTxID := "INVITE|b6",
                  message := timeoutResponseFromRequest c6Data 408
                    "Request Timeout" }] ∧
    parseCSeqNumber (invite0.GetHeader "CSeq") = some 0 ∧
    (cancelFromRequest c6Data).GetHeader "CSeq" = "1 CANCEL" := by
  refine ⟨rfl, rfl, rfl⟩

/-- C6 (amended): when an INVITE client transaction's timer-C deadline
elapses with no final response received (and its timer-B deadline is not also
due, which would take precedence), the cleanup tick emits upstream a CANCEL
built from the stored INVITE — same Request-URI, CSeq number preserved when
it parses to a positive integer but clamped to 1 otherwise, empty body,
Content-Length 0 — then delivers a synthetic 408 to the TU and destroys the
client transaction entry. -/
theorem timerC_spec (now : Int) (cfg : TransactionLayerConfig) (key : String)
    (entry : ClientTransactionEntry) (d : TransactionData)
    (istate : InviteClientState) (sid : String) (tC : Int)
    (htxn : entry.txn = ClientTxn.invite d istate sid)
    (hC : entry.timerCDeadline = some tC) (hCdue : tC ≤ now)
    (hB : entry.deadline = none ∨ now < entry.deadline.getD 0) :
    cleanupTransactions now
        { config := cfg, serverTxns := [], clientTxns := [(key, entry)] } =
      ({ config := cfg, serverTxns := [], clientTxns := [] },
       [sendToTransport .upstream (cancelFromRequest d),
        sendToTU { kind := .response, serverTxID := sid, clientTxID := key,
                   message := timeoutResponseFromRequest d 408
                     "Request Timeout" }]) ∧
    (cancelFromRequest d).Method = "CANCEL" ∧
    (cancelFromRequest d).RequestURI = d.request.RequestURI ∧
    (cancelFromRequest d).Body = "" ∧
    (cancelFromRequest d).GetHeader "Content-Length" = "0" ∧
    (∀ n : Int, parseCSeqNumber (d.request.GetHeader "CSeq") = some n →
      0 < n →
      (cancelFromRequest d).GetHeader "CSeq" = goItoa n ++ " CANCEL") ∧
    (timeoutResponseFromRequest d 408 "Request Timeout").StatusCode = 408 := by
  have hstep : cleanupClientEntry cfg now (key, entry) =
      (none,
       [sendToTransport .upstream (cancelFromRequest d),
        sendToTU { kind := .response, serverTxID := sid, clientTxID := key,
                   message := timeoutResponseFromRequest d 408
                     "Request Timeout" }]) := by
    unfold cleanupClientEntry
    dsimp only
    have hBc : ¬ (entry.deadline ≠ none ∧ entry.deadline.getD 0 ≤ now) := by
      rcases hB with hB | hB
      · rw [hB]
        simp
      · intro hx
        omega
    have hCc : entry.timerCDeadline ≠ none ∧ entry.timerCDeadline.getD 0 ≤ now := by
      rw [hC]
      exact ⟨by simp, by simpa using hCdue⟩
    rw [if_neg hBc, if_pos hCc, htxn]
    rfl
  refine ⟨?_, ?_, ?_, ?_, ?_, ?_, ?_⟩
  · unfold cleanupTransactions cleanupFold
    rw [hstep]
    rfl
  · unfold cancelFromRequest
    dsimp only
    cases hn : parseCSeqNumber (d.request.GetHeader "CSeq") <;> rfl
  · unfold cancelFromRequest
    dsimp only
    cases hn : parseCSeqNumber (d.request.GetHeader "CSeq") <;> rfl
  · unfold cancelFromRequest
    dsimp only
    cases hn : parseCSeqNumber (d.request.GetHeader "CSeq") <;> rfl
  · show ((cancelFromRequest d).HeaderValues "Content-Length").headD "" = "0"
    unfold cancelFromRequest
    dsimp only
    cases hn : parseCSeqNumber (d.request.GetHeader "CSeq") with
    | none =>
      unfold Message.EnsureContentLength
      rw [HeaderValues_SetHeader_self]
      simp only [SetHeader_Body]
      rfl
    | some k =>
      unfold Message.EnsureContentLength
      rw [HeaderValues_SetHeader_self]
      simp only [SetHeader_Body]
      rfl
  · intro n hn hpos
    unfold cancelFromRequest
    dsimp only
    rw [hn]
    show (((({ d.request with
        isRequest := true
        Method := "CANCEL"
        StatusCode := 0
        ReasonPhrase := ""
        Body := "" } : Message).SetHeader
      "CSeq" [formatCSeq n "CANCEL"]).EnsureContentLength).HeaderValues
      "CSeq").headD "" = goItoa n ++ " CANCEL"
    unfold Message.EnsureContentLength
    rw [HeaderValues_SetHeader_other _ _ _ _ (by decide)]
    rw [HeaderValues_SetHeader_self]
    show formatCSeq n "CANCEL" = goItoa n ++ " CANCEL"
    unfold formatCSeq
    rw [if_neg (by omega : ¬ n ≤ 0)]
    show goItoa n ++ " " ++ goToUpper "CANCEL" = goItoa n ++ " CANCEL"
    rw [String.append_assoc]
    rfl
  · unfold timeoutResponseFromRequest
    dsimp only
    by_cases hTo : (CopyHeaders (NewResponse 408 "Request Timeout") d.request
        ["Via", "From", "To", "Call-ID", "CSeq"]).GetHeader "To" = ""
    · rw [if_pos hTo]
      show (CopyHeaders (NewResponse 408 "Request Timeout") d.request
        ["Via", "From", "To", "Call-ID", "CSeq"]).StatusCode = 408
      rw [CopyHeaders_StatusCode]
      rfl
    · rw [if_neg hTo]
      show (CopyHeaders (NewResponse 408 "Request Timeout") d.request
        ["Via", "From", "To", "Call-ID", "CSeq"]).StatusCode = 408
      rw [CopyHeaders_StatusCode]
      rfl

/-- Witness for the amended C6 at `c6StateB`: timer C due at tick 200 while
the timer-B deadline (900) is set but not yet due. -/
theorem timerC_spec_witness :
    cleanupTransactions 200 c6StateB =
      ({ config := c6StateB.config, serverTxns := [], clientTxns := [] },
       [sendToTransport .upstream (cancelFromRequest c6Data),
        sendToTU { kind := .response, serverTxID := "stid",
                   clientTxID := "INVITE|b6",
                   message := timeoutResponseFromRequest c6Data 408
                     "Request Timeout" }]) := by
  have h := timerC_spec 200 c6StateB.config "INVITE|b6"
    ((c6StateB.clientTxns.headD
      ("", { txn := ClientTxn.invite {} InviteClientState.Calling "" })).2)
    c6Data InviteClientState.Proceeding "stid" 100 rfl rfl (by decide)
    (Or.inr (by decide))
  exact h.1

/-! ### C1 helper lemmas -/

theorem finalizeForks_nil (forks : List BroadcastFork) :
    finalizeForks [] forks = forks := by
  unfold finalizeForks
  simp

theorem finalize_clientTxID (ids : List String) (f : BroadcastFork) :
    (if f.clientTxID ∈ ids then { f with final := true } else f).clientTxID =
      f.clientTxID := by
  split <;> rfl

theorem finalize_branch (ids : List String) (f : BroadcastFork) :
    (if f.clientTxID ∈ ids then { f with final := true } else f).branch =
      f.branch := by
  split <;> rfl

theorem findFork_finalize (ids : List String) (forks : List BroadcastFork)
    (id : String) :
    findFork (finalizeForks ids forks) id =
      (findFork forks id).map
        (fun f => if f.clientTxID ∈ ids then { f with final := true } else f) := by
  unfold findFork finalizeForks
  induction forks with
  | nil => rfl
  | cons f t ih =>
    rw [List.map_cons]
    by_cases hid : f.clientTxID = id
    · rw [List.find?_cons_of_pos _ (by simp only [finalize_clientTxID]; simp [hid]),
        List.find?_cons_of_pos _ (by simp [hid])]
      rfl
    · rw [List.find?_cons_of_neg _ (by simp only [finalize_clientTxID]; simp [hid]),
        List.find?_cons_of_neg _ (by simp [hid]), ih]

theorem markForkFinal_finalize (ids : List String) (id : String)
    (forks : List BroadcastFork) :
    markForkFinal (finalizeForks ids forks) id =
      finalizeForks (ids ++ [id]) forks := by
  unfold markForkFinal finalizeForks
  rw [List.map_map]
  apply List.map_congr_left
  intro f _
  simp only [Function.comp]
  by_cases hmem : f.clientTxID ∈ ids
  · rw [if_pos hmem, if_pos (List.mem_append_left _ hmem)]
    by_cases hid : f.clientTxID = id
    · rw [if_pos (by simp [hid])]
    · rw [if_neg (by simp [hid])]
  · rw [if_neg hmem]
    by_cases hid : f.clientTxID = id
    · rw [if_pos (by simp [hid]), if_pos (by simp [hid])]
    · rw [if_neg (by simp [hid]), if_neg (by simp [hmem, hid])]

theorem allFinal_finalize (ids : List String) (forks : List BroadcastFork)
    (hzero : ∀ f ∈ forks, f.final = false) :
    ((finalizeForks ids forks).all (·.final) = true) ↔
      ∀ f ∈ forks, f.clientTxID ∈ ids := by
  unfold finalizeForks
  rw [List.all_map, List.all_eq_true]
  constructor
  · intro h f hf
    have h₂ := h f hf
    simp only [Function.comp] at h₂
    by_cases hmem : f.clientTxID ∈ ids
    · exact hmem
    · rw [if_neg hmem] at h₂
      rw [hzero f hf] at h₂
      exact absurd h₂ (by simp)
  · intro h f hf
    simp only [Function.comp]
    rw [if_pos (h f hf)]

theorem firstMaxEvent_append (evs : List (String × Message))
    (e : String × Message) :
    firstMaxEvent (evs ++ [e]) =
      match firstMaxEvent evs with
      | none => some e
      | some f =>
          if f.2.StatusCode < e.2.StatusCode then some e else some f := by
  induction evs with
  | nil => rfl
  | cons p t ih =>
    rw [List.cons_append]
    simp only [firstMaxEvent]
    rw [ih]
    cases ht : firstMaxEvent t with
    | none =>
      dsimp only
    | some g =>
      dsimp only
      by_cases h₁ : g.2.StatusCode < e.2.StatusCode <;>
        by_cases h₂ : p.2.StatusCode < g.2.StatusCode <;>
        by_cases h₃ : p.2.StatusCode < e.2.StatusCode <;>
        simp [h₁, h₂, h₃, gt_iff_lt] <;>
        (first | rfl | (exfalso; omega))

theorem firstMaxEvent_cons_ne_none (p : String × Message)
    (t : List (String × Message)) :
    firstMaxEvent (p :: t) ≠ none := by
  simp only [firstMaxEvent]
  cases firstMaxEvent t with
  | none => simp
  | some g =>
    dsimp only
    split <;> simp

theorem firstMaxEvent_isSome (evs : List (String × Message)) (hne : evs ≠ []) :
    ∃ f, firstMaxEvent evs = some f := by
  cases hv : firstMaxEvent evs with
  | none =>
    cases evs with
    | nil => exact absurd rfl hne
    | cons p t => exact absurd hv (firstMaxEvent_cons_ne_none p t)
  | some f => exact ⟨f, rfl⟩

theorem firstMaxEvent_max (evs : List (String × Message)) (f : String × Message)
    (hf : firstMaxEvent evs = some f) :
    ∀ e ∈ evs, e.2.StatusCode ≤ f.2.StatusCode := by
  induction evs generalizing f with
  | nil => simp [firstMaxEvent] at hf
  | cons p t ih =>
    intro e he
    simp only [firstMaxEvent] at hf
    cases ht : firstMaxEvent t with
    | none =>
      rw [ht] at hf
      dsimp only at hf
      injection hf with hf
      rcases List.mem_cons.mp he with h | h
      · rw [h, ← hf]
      · cases t with
        | nil => simp at h
        | cons a l => exact absurd ht (firstMaxEvent_cons_ne_none a l)
    | some g =>
      rw [ht] at hf
      dsimp only at hf
      by_cases hgp : g.2.StatusCode > p.2.StatusCode
      · rw [if_pos hgp] at hf
        injection hf with hf
        rcases List.mem_cons.mp he with h | h
        · rw [h, ← hf]
          exact le_of_lt hgp
        · rw [← hf]
          exact ih g ht e h
      · rw [if_neg hgp] at hf
        injection hf with hf
        rcases List.mem_cons.mp he with h | h
        · rw [h, ← hf]
        · rw [← hf]
          exact le_trans (ih g ht e h) (not_lt.mp hgp)

theorem firstMaxEvent_earliest (evs : List (String × Message))
    (f : String × Message) (hf : firstMaxEvent evs = some f) :
    ∃ pre post, evs = pre ++ f :: post ∧
      ∀ e ∈ pre, e.2.StatusCode < f.2.StatusCode := by
  induction evs generalizing f with
  | nil => simp [firstMaxEvent] at hf
  | cons p t ih =>
    simp only [firstMaxEvent] at hf
    cases ht : firstMaxEvent t with
    | none =>
      rw [ht] at hf
      dsimp only at hf
      injection hf with hf
      exact ⟨[], t, by simp [hf], by simp⟩
    | some g =>
      rw [ht] at hf
      dsimp only at hf
      by_cases hgp : g.2.StatusCode > p.2.StatusCode
      · rw [if_pos hgp] at hf
        injection hf with hf
        obtain ⟨pre, post, heq, hlt⟩ := ih g ht
        refine ⟨p :: pre, post, by rw [List.cons_append, heq, hf], ?_⟩
        intro e hep
        rcases List.mem_cons.mp hep with h | h
        · rw [h, ← hf]
          exact hgp
        · rw [← hf]
          exact hlt e h
      · rw [if_neg hgp] at hf
        injection hf with hf
        exact ⟨[], t, by simp [hf], by simp⟩

theorem firstMaxEvent_mem (evs : List (String × Message))
    (f : String × Message) (hf : firstMaxEvent evs = some f) : f ∈ evs := by
  obtain ⟨pre, post, heq, _⟩ := firstMaxEvent_earliest evs f hf
  rw [heq]
  exact List.mem_append_right pre (List.mem_cons_self f post)

theorem bestStateOf_append (forks : List BroadcastFork)
    (evs : List (String × Message)) (e : String × Message) :
    bestStateOf forks (evs ++ [e]) =
      if (bestStateOf forks evs).2 = none ∨
          (bestStateOf forks evs).1 < e.2.StatusCode then
        (e.2.StatusCode, some (stripEvent forks e))
      else bestStateOf forks evs := by
  unfold bestStateOf
  rw [firstMaxEvent_append]
  cases hm : firstMaxEvent evs with
  | none =>
    dsimp only
    rw [if_pos (Or.inl rfl)]
  | some f =>
    dsimp only
    by_cases h : f.2.StatusCode < e.2.StatusCode
    · rw [if_pos h, if_pos (Or.inr h)]
    · rw [if_neg h, if_neg (by simp [h])]

theorem removeTopVia_StatusCode (m : Message) (b : String) :
    (removeTopViaWithBranch m b).StatusCode = m.StatusCode := by
  unfold removeTopViaWithBranch
  by_cases hb : b = ""
  · rw [if_pos hb]
  · rw [if_neg hb]
    cases hv : m.HeaderValues "Via" with
    | nil => rfl
    | cons v vs =>
      dsimp only
      split <;> rfl

theorem hbr_fail_eq (fb stid id : String) (s : BroadcastSession)
    (resp : Message) (fork : BroadcastFork)
    (hm : ¬ goToUpper (cseqMethod resp) = "CANCEL")
    (hf : findFork s.forks id = some fork)
    (hw : s.winner = "")
    (hge : 300 ≤ (removeTopViaWithBranch resp fork.branch).StatusCode) :
    handleBroadcastResponse fb stid id s resp =
      (if (markForkFinal s.forks id).all (·.final) = true then
        (if s.bestResponse = none ∨
            s.bestStatus < (removeTopViaWithBranch resp fork.branch).StatusCode then
          ({ s with forks := markForkFinal s.forks id,
                    bestStatus := (removeTopViaWithBranch resp fork.branch).StatusCode,
                    bestResponse := some (removeTopViaWithBranch resp fork.branch),
                    finalised := true },
           [emitAction { kind := .sendResponse, serverTxID := stid,
                         message := some (removeTopViaWithBranch resp fork.branch) }],
           true)
        else
          ({ s with forks := markForkFinal s.forks id, finalised := true },
           [emitAction { kind := .sendResponse, serverTxID := stid,
                         message := some (s.bestResponse.getD
                             (removeTopViaWithBranch resp fork.branch)) }],
           true))
      else
        (if s.bestResponse = none ∨
            s.bestStatus < (removeTopViaWithBranch resp fork.branch).StatusCode then
          ({ s with forks := markForkFinal s.forks id,
                    bestStatus := (removeTopViaWithBranch resp fork.branch).StatusCode,
                    bestResponse := some (removeTopViaWithBranch resp fork.branch) },
           ([] : List TuAction), false)
        else
          ({ s with forks := markForkFinal s.forks id },
           ([] : List TuAction), false))) := by
  have hlt200 : ¬ (removeTopViaWithBranch resp fork.branch).StatusCode < 200 := by
    omega
  have hlt300 : ¬ (removeTopViaWithBranch resp fork.branch).StatusCode < 300 := by
    omega
  unfold handleBroadcastResponse
  dsimp only
  rw [if_neg hm, hf]
  dsimp only
  rw [if_neg hlt200, if_neg hlt300]
  by_cases hc : s.bestResponse = none ∨
      s.bestStatus < (removeTopViaWithBranch resp fork.branch).StatusCode
  · rw [if_pos hc]
    simp only [BroadcastSession.allForksFinal]
    rw [hw]
    by_cases hall : (markForkFinal s.forks id).all (·.final) = true
    · rw [if_pos ⟨rfl, hall⟩, if_pos hall, if_pos hc]
      dsimp only
      simp [hall]
    · rw [if_neg (fun hx => hall hx.2), if_neg hall, if_pos hc]
      dsimp only
      have hallf : (markForkFinal s.forks id).all (·.final) = false :=
        Bool.eq_false_iff.mpr hall
      simp [hallf]
  · rw [if_neg hc]
    simp only [BroadcastSession.allForksFinal]
    rw [hw]
    by_cases hall : (markForkFinal s.forks id).all (·.final) = true
    · rw [if_pos ⟨rfl, hall⟩, if_pos hall, if_neg hc]
      dsimp only
      simp [hall]
    · rw [if_neg (fun hx => hall hx.2), if_neg hall, if_neg hc]
      dsimp only
      have hallf : (markForkFinal s.forks id).all (·.final) = false :=
        Bool.eq_false_iff.mpr hall
      simp [hallf]

theorem runBroadcast_cons (fb stid eid : String) (eresp : Message)
    (s : BroadcastSession) (rest : List (String × Message)) :
    runBroadcast fb stid s ((eid, eresp) :: rest) =
      (match handleBroadcastResponse fb stid eid s eresp with
       | (s₁, acts, true) => (s₁, acts, true)
       | (s₁, acts, false) =>
         match runBroadcast fb stid s₁ rest with
         | (s₂, acts₂, destroyed) => (s₂, acts ++ acts₂, destroyed)) := rfl

theorem runBroadcast_allfail_inv (fb stid : String) (forks₀ : List BroadcastFork)
    (hzero : ∀ f ∈ forks₀, f.final = false) :
    ∀ (rest done : List (String × Message)) (s : BroadcastSession),
      s.winner = "" →
      s.finalised = false →
      s.forks = finalizeForks (done.map Prod.fst) forks₀ →
      s.bestStatus = (bestStateOf forks₀ done).1 →
      s.bestResponse = (bestStateOf forks₀ done).2 →
      ((done ++ rest).map Prod.fst).Nodup →
      (∀ e ∈ rest, (∃ f ∈ forks₀, f.clientTxID = e.1) ∧
        300 ≤ e.2.StatusCode ∧ ¬ goToUpper (cseqMethod e.2) = "CANCEL") →
      (∀ f ∈ forks₀, f.clientTxID ∈ (done ++ rest).map Prod.fst) →
      rest ≠ [] →
      (runBroadcast fb stid s rest).2 =
        ([emitAction { kind := .sendResponse, serverTxID := stid,
                       message := (bestStateOf forks₀ (done ++ rest)).2 }],
         true) := by
  intro rest
  induction rest with
  | nil =>
    intro done s _ _ _ _ _ _ _ _ hne
    exact absurd rfl hne
  | cons e rest' ih =>
    obtain ⟨eid, eresp⟩ := e
    intro done s hw hfin hforks hbs hbr hnodup hrest hcover _
    obtain ⟨⟨f₀, hf₀mem, hf₀id⟩, hge, hm⟩ :=
      hrest (eid, eresp) (List.mem_cons_self _ rest')
    have hsome : (findFork forks₀ eid).isSome := by
      unfold findFork
      rw [List.find?_isSome]
      exact ⟨f₀, hf₀mem, by simp [hf₀id]⟩
    obtain ⟨fork₀, hfork₀⟩ := Option.isSome_iff_exists.mp hsome
    have hffind : findFork s.forks eid =
        some (if fork₀.clientTxID ∈ done.map Prod.fst then
          { fork₀ with final := true } else fork₀) := by
      rw [hforks, findFork_finalize, hfork₀]
      rfl
    have hbranch : (if fork₀.clientTxID ∈ done.map Prod.fst then
        { fork₀ with final := true } else fork₀).branch = fork₀.branch :=
      finalize_branch _ _
    have hstripe : stripEvent forks₀ (eid, eresp) =
        removeTopViaWithBranch eresp fork₀.branch := by
      unfold stripEvent
      rw [hfork₀]
      rfl
    have hstep := hbr_fail_eq fb stid eid s eresp _ hm hffind hw
      (by rw [removeTopVia_StatusCode]; exact hge)
    rw [hbranch] at hstep
    have hmark : markForkFinal s.forks eid =
        finalizeForks ((done ++ [(eid, eresp)]).map Prod.fst) forks₀ := by
      rw [hforks, markForkFinal_finalize]
      simp
    rw [hmark] at hstep
    by_cases hc : (bestStateOf forks₀ done).2 = none ∨
        (bestStateOf forks₀ done).1 < eresp.StatusCode
    · have hc' : s.bestResponse = none ∨ s.bestStatus <
          (removeTopViaWithBranch eresp fork₀.branch).StatusCode := by
        rw [hbs, hbr, removeTopVia_StatusCode]
        exact hc
      rw [if_pos hc', if_pos hc'] at hstep
      have hbsr : bestStateOf forks₀ (done ++ [(eid, eresp)]) =
          (eresp.StatusCode, some (removeTopViaWithBranch eresp fork₀.branch)) := by
        rw [bestStateOf_append]
        dsimp only
        rw [if_pos hc, hstripe]
      cases rest' with
      | nil =>
        have hallt : (finalizeForks ((done ++ [(eid, eresp)]).map Prod.fst)
            forks₀).all (·.final) = true := by
          rw [allFinal_finalize _ _ hzero]
          intro f hf
          exact hcover f hf
        rw [if_pos hallt] at hstep
        rw [runBroadcast_cons, hstep]
        dsimp only
        rw [hbsr]
      | cons e' rest'' =>
        have hallf : ¬ ((finalizeForks ((done ++ [(eid, eresp)]).map Prod.fst)
            forks₀).all (·.final) = true) := by
          intro hx
          obtain ⟨⟨f', hf'mem, hf'id⟩, _, _⟩ :=
            hrest e' (List.mem_cons_of_mem _ (List.mem_cons_self e' rest''))
          have h1 : f'.clientTxID ∈ (done ++ [(eid, eresp)]).map Prod.fst :=
            (allFinal_finalize _ _ hzero).mp hx f' hf'mem
          have hnd : (((done ++ [(eid, eresp)]) ++ e' :: rest'').map
              Prod.fst).Nodup := by
            rw [← List.append_cons]
            exact hnodup
          rw [List.map_append, List.nodup_append] at hnd
          exact hnd.2.2 (hf'id ▸ h1) (by simp)
        rw [if_neg hallf] at hstep
        have hihres := ih (done ++ [(eid, eresp)])
          { s with
            forks := finalizeForks ((done ++ [(eid, eresp)]).map Prod.fst) forks₀
            bestStatus := (removeTopViaWithBranch eresp fork₀.branch).StatusCode
            bestResponse := some (removeTopViaWithBranch eresp fork₀.branch) }
          hw hfin rfl
          (by rw [hbsr, removeTopVia_StatusCode])
          (by rw [hbsr])
          (by rw [← List.append_cons]; exact hnodup)
          (fun x hx => hrest x (List.mem_cons_of_mem _ hx))
          (by intro f hf
              rw [← List.append_cons]
              exact hcover f hf)
          (by simp)
        have hfull : runBroadcast fb stid
            { s with
              forks := finalizeForks ((done ++ [(eid, eresp)]).map Prod.fst) forks₀
              bestStatus := (removeTopViaWithBranch eresp fork₀.branch).StatusCode
              bestResponse := some (removeTopViaWithBranch eresp fork₀.branch) }
            (e' :: rest'') =
            ((runBroadcast fb stid
              { s with
                forks := finalizeForks ((done ++ [(eid, eresp)]).map Prod.fst) forks₀
                bestStatus := (removeTopViaWithBranch eresp fork₀.branch).StatusCode
                bestResponse := some (removeTopViaWithBranch eresp fork₀.branch) }
              (e' :: rest'')).1,
             [emitAction { kind := .sendResponse, serverTxID := stid,
                           message := (bestStateOf forks₀
                             ((done ++ [(eid, eresp)]) ++ e' :: rest'')).2 }],
             true) := by
          rw [← hihres]
        rw [runBroadcast_cons, hstep]
        dsimp only
        rw [hfull]
        dsimp only
        rw [List.append_cons done (eid, eresp) (e' :: rest'')]
        simp
    · have hc' : ¬ (s.bestResponse = none ∨ s.bestStatus <
          (removeTopViaWithBranch eresp fork₀.branch).StatusCode) := by
        rw [hbs, hbr, removeTopVia_StatusCode]
        exact hc
      rw [if_neg hc', if_neg hc'] at hstep
      have hbsr : bestStateOf forks₀ (done ++ [(eid, eresp)]) =
          bestStateOf forks₀ done := by
        rw [bestStateOf_append]
        dsimp only
        rw [if_neg hc]
      have hbne : (bestStateOf forks₀ done).2 ≠ none := fun hn => hc (Or.inl hn)
      obtain ⟨b, hb⟩ := Option.ne_none_iff_exists'.mp hbne
      cases rest' with
      | nil =>
        have hallt : (finalizeForks ((done ++ [(eid, eresp)]).map Prod.fst)
            forks₀).all (·.final) = true := by
          rw [allFinal_finalize _ _ hzero]
          intro f hf
          exact hcover f hf
        rw [if_pos hallt] at hstep
        rw [runBroadcast_cons, hstep]
        dsimp only
        rw [hbsr, hbr, hb]
        rfl
      | cons e' rest'' =>
        have hallf : ¬ ((finalizeForks ((done ++ [(eid, eresp)]).map Prod.fst)
            forks₀).all (·.final) = true) := by
          intro hx
          obtain ⟨⟨f', hf'mem, hf'id⟩, _, _⟩ :=
            hrest e' (List.mem_cons_of_mem _ (List.mem_cons_self e' rest''))
          have h1 : f'.clientTxID ∈ (done ++ [(eid, eresp)]).map Prod.fst :=
            (allFinal_finalize _ _ hzero).mp hx f' hf'mem
          have hnd : (((done ++ [(eid, eresp)]) ++ e' :: rest'').map
              Prod.fst).Nodup := by
            rw [← List.append_cons]
            exact hnodup
          rw [List.map_append, List.nodup_append] at hnd
          exact hnd.2.2 (hf'id ▸ h1) (by simp)
        rw [if_neg hallf] at hstep
        have hihres := ih (done ++ [(eid, eresp)])
          { s with
            forks := finalizeForks ((done ++ [(eid, eresp)]).map Prod.fst) forks₀ }
          hw hfin rfl
          (by rw [hbsr]; exact hbs)
          (by rw [hbsr]; exact hbr)
          (by rw [← List.append_cons]; exact hnodup)
          (fun x hx => hrest x (List.mem_cons_of_mem _ hx))
          (by intro f hf
              rw [← List.append_cons]
              exact hcover f hf)
          (by simp)
        have hfull : runBroadcast fb stid
            { s with
              forks := finalizeForks ((done ++ [(eid, eresp)]).map Prod.fst) forks₀ }
            (e' :: rest'') =
            ((runBroadcast fb stid
              { s with
                forks := finalizeForks ((done ++ [(eid, eresp)]).map Prod.fst) forks₀ }
              (e' :: rest'')).1,
             [emitAction { kind := .sendResponse, serverTxID := stid,
                           message := (bestStateOf forks₀
                             ((done ++ [(eid, eresp)]) ++ e' :: rest'')).2 }],
             true) := by
          rw [← hihres]
        rw [runBroadcast_cons, hstep]
        dsimp only
        rw [hfull]
        dsimp only
        rw [List.append_cons done (eid, eresp) (e' :: rest'')]
        simp

/-- C1 (amended): in a broadcast session where every fork receives a final
response with status ≥ 300 (and none a 2xx), exactly one final is sent
downstream, the session is destroyed, and the forwarded final is the
via-stripped response of the earliest event attaining the highest status —
ties are broken by the EARLIEST such response, not the latest. -/
theorem broadcast_best_failure (fb stid : String) (s : BroadcastSession)
    (events : List (String × Message))
    (hw : s.winner = "") (hfin : s.finalised = false)
    (hbs : s.bestStatus = -1) (hbr : s.bestResponse = none)
    (hzero : ∀ f ∈ s.forks, f.final = false)
    (hnodup : (events.map Prod.fst).Nodup)
    (hforks : ∀ e ∈ events, ∃ f ∈ s.forks, f.clientTxID = e.1)
    (hcover : ∀ f ∈ s.forks, f.clientTxID ∈ events.map Prod.fst)
    (hstatus : ∀ e ∈ events, 300 ≤ e.2.StatusCode)
    (hmeth : ∀ e ∈ events, ¬ goToUpper (cseqMethod e.2) = "CANCEL")
    (hne : events ≠ []) :
    ∃ best ∈ events,
      firstMaxEvent events = some best ∧
      (∀ e ∈ events, e.2.StatusCode ≤ best.2.StatusCode) ∧
      (∃ pre post, events = pre ++ best :: post ∧
        ∀ e ∈ pre, e.2.StatusCode < best.2.StatusCode) ∧
      (runBroadcast fb stid s events).2 =
        ([emitAction { kind := .sendResponse, serverTxID := stid,
                       message := some (stripEvent s.forks best) }],
         true) := by
  obtain ⟨best, hbest⟩ := firstMaxEvent_isSome events hne
  refine ⟨best, firstMaxEvent_mem events best hbest, hbest,
    firstMaxEvent_max events best hbest,
    firstMaxEvent_earliest events best hbest, ?_⟩
  have hinv := runBroadcast_allfail_inv fb stid s.forks hzero events [] s
    hw hfin (finalizeForks_nil s.forks).symm hbs hbr
    (by simpa using hnodup)
    (fun e he => ⟨hforks e he, hstatus e he, hmeth e he⟩)
    (by simpa using hcover)
    hne
  rw [List.nil_append] at hinv
  rw [hinv]
  unfold bestStateOf
  rw [hbest]

/-- C1 counterexample: two forks both answer 486; the final forwarded
downstream is the via-stripped FIRST 486 (reason "First"), not the latest
one (reason "Second") as the claim's tie-break predicts. -/
theorem broadcast_tiebreak_counterexample :
    cxRespA.StatusCode = 486 ∧ cxRespB.StatusCode = 486 ∧
    (runBroadcast "" "st" cxSession cxEvents).2 =
      ([emitAction { kind := .sendResponse, serverTxID := "st",
                     message := some (removeTopViaWithBranch cxRespA "ba") }],
       true) ∧
    (removeTopViaWithBranch cxRespA "ba").ReasonPhrase = "First" ∧
    (removeTopViaWithBranch cxRespB "bb").ReasonPhrase = "Second" ∧
    ¬ (runBroadcast "" "st" cxSession cxEvents).2.1 =
        [emitAction { kind := .sendResponse, serverTxID := "st",
                      message := some (removeTopViaWithBranch cxRespB "bb") }] := by
  refine ⟨rfl, rfl, by decide, rfl, rfl, by decide⟩

/-- Witness for C1: the amended theorem applied to the two-fork session with
two 486 finals. -/
theorem broadcast_best_failure_witness :
    ((∀ f ∈ cxSession.forks, f.final = false) ∧
     (cxEvents.map Prod.fst).Nodup ∧
     (∀ e ∈ cxEvents, ∃ f ∈ cxSession.forks, f.clientTxID = e.1) ∧
     (∀ f ∈ cxSession.forks, f.clientTxID ∈ cxEvents.map Prod.fst) ∧
     (∀ e ∈ cxEvents, 300 ≤ e.2.StatusCode) ∧
     (∀ e ∈ cxEvents, ¬ goToUpper (cseqMethod e.2) = "CANCEL") ∧
     cxEvents ≠ []) ∧
    (∃ best ∈ cxEvents,
      firstMaxEvent cxEvents = some best ∧
      (∀ e ∈ cxEvents, e.2.StatusCode ≤ best.2.StatusCode) ∧
      (∃ pre post, cxEvents = pre ++ best :: post ∧
        ∀ e ∈ pre, e.2.StatusCode < best.2.StatusCode) ∧
      (runBroadcast "" "st" cxSession cxEvents).2 =
        ([emitAction { kind := .sendResponse, serverTxID := "st",
                       message := some (stripEvent cxSession.forks best) }],
         true)) :=
  ⟨⟨by decide, by decide, by decide, by decide, by decide, by decide, by decide⟩,
   broadcast_best_failure "" "st" cxSession cxEvents rfl rfl rfl rfl
     (by decide) (by decide) (by decide) (by decide) (by decide) (by decide)
     (by decide)⟩

/-! ### C9 helper lemmas: character and trimming facts -/

theorem toNat_ofNat_valid (n : Nat) (h : n < 55296) :
    (Char.ofNat n).toNat = n := by
  unfold Char.ofNat
  rw [dif_pos (Or.inl (by omega))]
  rfl

theorem toLower_toLower (c : Char) :
    Char.toLower (Char.toLower c) = Char.toLower c := by
  by_cases h : c.toNat ≥ 65 ∧ c.toNat ≤ 90
  · have hin : Char.toLower c = Char.ofNat (c.toNat + 32) := by
      unfold Char.toLower
      dsimp only
      rw [if_pos h]
    rw [hin]
    unfold Char.toLower
    dsimp only
    rw [if_neg]
    intro hx
    rw [toNat_ofNat_valid _ (by omega)] at hx
    omega
  · have hin : Char.toLower c = c := by
      unfold Char.toLower
      dsimp only
      rw [if_neg h]
    rw [hin]
    exact hin

theorem goIsSpace_of_range (x : Char) (h65 : 65 ≤ x.toNat)
    (h122 : x.toNat ≤ 122) : goIsSpace x = false := by
  have hne : ∀ t : Char, t.toNat < 65 ∨ 122 < t.toNat → (x == t) = false := by
    intro t ht
    apply beq_eq_false_iff_ne.mpr
    intro he
    rw [he] at h65 h122
    omega
  unfold goIsSpace
  rw [hne ' ' (Or.inl (by decide)), hne '\t' (Or.inl (by decide)),
    hne '\n' (Or.inl (by decide)), hne (Char.ofNat 11) (Or.inl (by decide)),
    hne (Char.ofNat 12) (Or.inl (by decide)), hne '\r' (Or.inl (by decide)),
    hne (Char.ofNat 0x85) (Or.inr (by decide)),
    hne (Char.ofNat 0xA0) (Or.inr (by decide))]
  rfl

theorem goIsSpace_toLower (c : Char) :
    goIsSpace (Char.toLower c) = goIsSpace c := by
  by_cases h : c.toNat ≥ 65 ∧ c.toNat ≤ 90
  · have hin : Char.toLower c = Char.ofNat (c.toNat + 32) := by
      unfold Char.toLower
      dsimp only
      rw [if_pos h]
    rw [hin]
    rw [goIsSpace_of_range _ (by rw [toNat_ofNat_valid _ (by omega)]; omega)
      (by rw [toNat_ofNat_valid _ (by omega)]; omega)]
    rw [goIsSpace_of_range _ (by omega) (by omega)]
  · have hin : Char.toLower c = c := by
      unfold Char.toLower
      dsimp only
      rw [if_neg h]
    rw [hin]

theorem toLower_eq_at (c : Char) (h : Char.toLower c = '@') : c = '@' := by
  by_cases hb : c.toNat ≥ 65 ∧ c.toNat ≤ 90
  · have hin : Char.toLower c = Char.ofNat (c.toNat + 32) := by
      unfold Char.toLower
      dsimp only
      rw [if_pos hb]
    rw [hin] at h
    have h2 := congrArg Char.toNat h
    rw [toNat_ofNat_valid _ (by omega)] at h2
    have h64 : ('@' : Char).toNat = 64 := by decide
    rw [h64] at h2
    omega
  · have hin : Char.toLower c = c := by
      unfold Char.toLower
      dsimp only
      rw [if_neg hb]
    rw [hin] at h
    exact h

theorem head_dropWhile (q : Char → Bool) (l : List Char) :
    ∀ x ∈ (l.dropWhile q).head?, q x = false := by
  induction l with
  | nil => intro x hx; simp at hx
  | cons a t ih =>
    intro x hx
    rw [List.dropWhile_cons] at hx
    by_cases hqa : q a = true
    · rw [if_pos hqa] at hx
      exact ih x hx
    · rw [if_neg hqa] at hx
      simp at hx
      rw [← hx]
      exact Bool.eq_false_iff.mpr hqa

theorem dropWhile_eq_self_of_head (q : Char → Bool) (l : List Char)
    (h : ∀ x ∈ l.head?, q x = false) : l.dropWhile q = l := by
  cases l with
  | nil => rfl
  | cons a t =>
    rw [List.dropWhile_cons, if_neg]
    rw [h a (by simp)]
    simp

theorem getLast?_append_right (t s : List Char) (h : s ≠ []) :
    (t ++ s).getLast? = s.getLast? := by
  cases hs : s.reverse with
  | nil => exact absurd (by simpa using congrArg List.reverse hs) h
  | cons b r =>
    rw [← List.head?_reverse, ← List.head?_reverse, List.reverse_append, hs]
    rfl

theorem goTrimSpace_idem (s : String) :
    goTrimSpace (goTrimSpace s) = goTrimSpace s := by
  unfold goTrimSpace
  show ((((((s.data.dropWhile goIsSpace).reverse.dropWhile
      goIsSpace).reverse).dropWhile goIsSpace).reverse.dropWhile
      goIsSpace).reverse).asString = _
  by_cases hB : (s.data.dropWhile goIsSpace).reverse.dropWhile goIsSpace = []
  · rw [hB]
    rfl
  · have h1 : ((s.data.dropWhile goIsSpace).reverse.dropWhile
        goIsSpace).reverse.dropWhile goIsSpace =
        ((s.data.dropWhile goIsSpace).reverse.dropWhile goIsSpace).reverse := by
      apply dropWhile_eq_self_of_head
      intro x hx
      rw [List.head?_reverse] at hx
      have hsuf := List.takeWhile_append_dropWhile (p := goIsSpace)
        (l := (s.data.dropWhile goIsSpace).reverse)
      have hlast : ((s.data.dropWhile goIsSpace).reverse.dropWhile
          goIsSpace).getLast? = (s.data.dropWhile goIsSpace).reverse.getLast? := by
        conv_rhs => rw [← hsuf]
        exact (getLast?_append_right _ _ hB).symm
      rw [hlast, List.getLast?_reverse] at hx
      exact head_dropWhile _ _ x hx
    rw [h1, List.reverse_reverse]
    have h2 : ((s.data.dropWhile goIsSpace).reverse.dropWhile
        goIsSpace).dropWhile goIsSpace =
        (s.data.dropWhile goIsSpace).reverse.dropWhile goIsSpace := by
      apply dropWhile_eq_self_of_head
      exact head_dropWhile _ _
    rw [h2]

theorem goToLower_idem (s : String) :
    goToLower (goToLower s) = goToLower s := by
  unfold goToLower
  show ((s.data.map Char.toLower).map Char.toLower).asString = _
  rw [List.map_map]
  congr 1
  apply List.map_congr_left
  intro a _
  simp only [Function.comp]
  exact toLower_toLower a

theorem goTrimSpace_goToLower (s : String) :
    goTrimSpace (goToLower s) = goToLower (goTrimSpace s) := by
  unfold goTrimSpace goToLower
  have hqf : (goIsSpace ∘ Char.toLower) = goIsSpace :=
    funext goIsSpace_toLower
  show ((((s.data.map Char.toLower).dropWhile
      goIsSpace).reverse.dropWhile goIsSpace).reverse).asString =
    (((((s.data.dropWhile goIsSpace).reverse.dropWhile
      goIsSpace).reverse)).map Char.toLower).asString
  rw [List.dropWhile_map, hqf, ← List.map_reverse, List.dropWhile_map, hqf,
    ← List.map_reverse]

theorem take_findIdx?_false (q : Char → Bool) :
    ∀ (xs : List Char) (j : Nat), xs.findIdx? q = some j →
      ∀ x ∈ xs.take j, q x = false := by
  intro xs
  induction xs with
  | nil => intro j hj x hx; simp at hx
  | cons a t ih =>
    intro j hj x hx
    rw [List.findIdx?_cons] at hj
    by_cases hqa : q a = true
    · rw [if_pos hqa] at hj
      injection hj with hj
      rw [← hj] at hx
      simp at hx
    · rw [if_neg hqa] at hj
      rw [List.findIdx?_succ] at hj
      cases hj0 : t.findIdx? q with
      | none => rw [hj0] at hj; simp at hj
      | some j2 =>
        rw [hj0] at hj
        simp at hj
        rw [← hj, List.take_succ_cons] at hx
        rcases List.mem_cons.mp hx with hh | hh
        · rw [hh]
          exact Bool.eq_false_iff.mpr hqa
        · exact ih j2 hj0 x hh

theorem goLastIndexChar_none (s : String) (c : Char)
    (h : goLastIndexChar s c = none) : ¬ c ∈ s.data := by
  unfold goLastIndexChar at h
  cases hf : s.data.reverse.findIdx? (· = c) with
  | some j => rw [hf] at h; simp at h
  | none =>
    intro hm
    have h2 := List.findIdx?_eq_none_iff.mp hf c (List.mem_reverse.mpr hm)
    simp at h2

theorem goLastIndexChar_some_drop (s : String) (c : Char) (i : Nat)
    (h : goLastIndexChar s c = some i) : ¬ c ∈ (goDrop s (i + 1)).data := by
  unfold goLastIndexChar at h
  cases hf : s.data.reverse.findIdx? (· = c) with
  | none => rw [hf] at h; simp at h
  | some j =>
    rw [hf] at h
    injection h with h
    obtain ⟨hjlt, _⟩ := List.findIdx?_eq_some_iff_findIdx_eq.mp hf
    rw [List.length_reverse] at hjlt
    intro hm
    unfold goDrop at hm
    rw [show ((s.data.drop (i + 1)).asString).data = s.data.drop (i + 1)
      from rfl] at hm
    have hi : i + 1 = s.data.length - j := by omega
    rw [hi] at hm
    have hdr : s.data.drop (s.data.length - j) =
        (s.data.reverse.take j).reverse := by
      rw [← List.rtake_eq_reverse_take_reverse]
      rfl
    rw [hdr] at hm
    have h3 := take_findIdx?_false _ _ j hf c (List.mem_reverse.mp hm)
    simp at h3

theorem mem_goTrimSpace (s : String) (x : Char)
    (h : x ∈ (goTrimSpace s).data) : x ∈ s.data := by
  unfold goTrimSpace at h
  rw [show ((((s.data.dropWhile goIsSpace).reverse.dropWhile
      goIsSpace).reverse).asString).data =
    (((s.data.dropWhile goIsSpace).reverse.dropWhile goIsSpace).reverse)
    from rfl] at h
  rw [List.mem_reverse] at h
  have h2 := (List.dropWhile_sublist goIsSpace).mem h
  rw [List.mem_reverse] at h2
  exact (List.dropWhile_sublist goIsSpace).mem h2

theorem mem_goTrim (s : String) (cut : List Char) (x : Char)
    (h : x ∈ (goTrim s cut).data) : x ∈ s.data := by
  unfold goTrim at h
  rw [show ((((s.data.dropWhile (cut.contains ·)).reverse.dropWhile
      (cut.contains ·)).reverse).asString).data =
    (((s.data.dropWhile (cut.contains ·)).reverse.dropWhile
      (cut.contains ·)).reverse) from rfl] at h
  rw [List.mem_reverse] at h
  have h2 := (List.dropWhile_sublist (cut.contains ·)).mem h
  rw [List.mem_reverse] at h2
  exact (List.dropWhile_sublist (cut.contains ·)).mem h2

theorem mem_goTake (s : String) (i : Nat) (x : Char)
    (h : x ∈ (goTake s i).data) : x ∈ s.data := by
  unfold goTake at h
  rw [show (((s.data.take i).asString)).data = s.data.take i from rfl] at h
  exact List.mem_of_mem_take h

theorem mem_goDrop (s : String) (i : Nat) (x : Char)
    (h : x ∈ (goDrop s i).data) : x ∈ s.data := by
  unfold goDrop at h
  rw [show (((s.data.drop i).asString)).data = s.data.drop i from rfl] at h
  exact List.mem_of_mem_drop h

theorem sipHostTail_ok (user hostPort u h p : String)
    (hfree : ¬ ('@' : Char) ∈ hostPort.data)
    (hp : sipHostTail user hostPort = some (u, h, p)) :
    goTrimSpace h = h ∧ ¬ ('@' : Char) ∈ h.data := by
  have hfree2 : ¬ ('@' : Char) ∈ (goTrimSpace hostPort).data :=
    fun hm => hfree (mem_goTrimSpace _ _ hm)
  unfold sipHostTail at hp
  dsimp only at hp
  by_cases h2 : goTrimSpace hostPort = ""
  · rw [if_pos h2] at hp
    exact absurd hp (by simp)
  · rw [if_neg h2] at hp
    by_cases h3 : goStartsWith (goTrimSpace hostPort) "[" = true
    · rw [if_pos h3] at hp
      cases he : goIndexChar (goTrimSpace hostPort) ']' with
      | none =>
        rw [he] at hp
        exact absurd hp (by simp)
      | some endIdx =>
        rw [he] at hp
        dsimp only at hp
        by_cases h4 : goTrimSpace (goTrim (goTrimSpace (goTake
            (goDrop (goTrimSpace hostPort) 1) (endIdx - 1))) ['[', ']']) = ""
        · rw [if_pos h4] at hp
          exact absurd hp (by simp)
        · rw [if_neg h4] at hp
          injection hp with hp
          injection hp with hu hp
          injection hp with hh hpp
          subst hh
          refine ⟨goTrimSpace_idem _, ?_⟩
          intro hm
          exact hfree2 (mem_goDrop _ _ _ (mem_goTake _ _ _ (mem_goTrimSpace _ _
            (mem_goTrim _ _ _ (mem_goTrimSpace _ _ hm)))))
    · rw [if_neg h3] at hp
      cases hc : goLastIndexChar (goTrimSpace hostPort) ':' with
      | some colon =>
        rw [hc] at hp
        dsimp only at hp
        by_cases h5 : goContainsChar (goDrop (goTrimSpace hostPort)
            (colon + 1)) ':' = true
        · rw [if_pos h5] at hp
          dsimp only at hp
          by_cases h6 : goTrimSpace (goTrim (goTrimSpace hostPort)
              ['[', ']']) = ""
          · rw [if_pos h6] at hp
            exact absurd hp (by simp)
          · rw [if_neg h6] at hp
            injection hp with hp
            injection hp with hu hp
            injection hp with hh hpp
            subst hh
            refine ⟨goTrimSpace_idem _, ?_⟩
            intro hm
            exact hfree2 (mem_goTrim _ _ _ (mem_goTrimSpace _ _ hm))
        · rw [if_neg h5] at hp
          dsimp only at hp
          by_cases h6 : goTrimSpace (goTrim (goTrimSpace (goTake
              (goTrimSpace hostPort) colon)) ['[', ']']) = ""
          · rw [if_pos h6] at hp
            exact absurd hp (by simp)
          · rw [if_neg h6] at hp
            injection hp with hp
            injection hp with hu hp
            injection hp with hh hpp
            subst hh
            refine ⟨goTrimSpace_idem _, ?_⟩
            intro hm
            exact hfree2 (mem_goTake _ _ _ (mem_goTrimSpace _ _
              (mem_goTrim _ _ _ (mem_goTrimSpace _ _ hm))))
      | none =>
        rw [hc] at hp
        dsimp only at hp
        by_cases h6 : goTrimSpace (goTrim (goTrimSpace hostPort)
            ['[', ']']) = ""
        · rw [if_pos h6] at hp
          exact absurd hp (by simp)
        · rw [if_neg h6] at hp
          injection hp with hp
          injection hp with hu hp
          injection hp with hh hpp
          subst hh
          refine ⟨goTrimSpace_idem _, ?_⟩
          intro hm
          exact hfree2 (mem_goTrim _ _ _ (mem_goTrimSpace _ _ hm))


theorem parseSIPURI_host_ok (uri u h p : String)
    (hp : parseSIPURI uri = some (u, h, p)) :
    goTrimSpace h = h ∧ ¬ ('@' : Char) ∈ h.data := by
  unfold parseSIPURI at hp
  dsimp only at hp
  by_cases h1 : goTrimSpace uri = ""
  · rw [if_pos h1] at hp
    exact absurd hp (by simp)
  · rw [if_neg h1] at hp
    by_cases h7 : goTrimSpace (sipCleanURI (goTrimSpace uri)) = ""
    · rw [if_pos h7] at hp
      exact absurd hp (by simp)
    · rw [if_neg h7] at hp
      cases hat : goLastIndexChar (goTrimSpace (sipCleanURI
          (goTrimSpace uri))) '@' with
      | some atIdx =>
        rw [hat] at hp
        exact sipHostTail_ok _ _ u h p
          (goLastIndexChar_some_drop _ _ _ hat) hp
      | none =>
        rw [hat] at hp
        exact sipHostTail_ok "" _ u h p (goLastIndexChar_none _ _ hat) hp

theorem goToLower_at_free (s : String) (h : ¬ ('@' : Char) ∈ s.data) :
    ¬ ('@' : Char) ∈ (goToLower s).data := by
  intro hm
  unfold goToLower at hm
  rw [show ((s.data.map Char.toLower).asString).data = s.data.map Char.toLower
    from rfl] at hm
  obtain ⟨c, hc, he⟩ := List.mem_map.mp hm
  rw [toLower_eq_at c he] at hc
  exact h hc

theorem sep_prefix_inj (sep : Char) :
    ∀ (X Y XS YS : List Char), ¬ sep ∈ X → ¬ sep ∈ Y →
      X ++ sep :: XS = Y ++ sep :: YS → X = Y := by
  intro X
  induction X with
  | nil =>
    intro Y XS YS _ hY he
    cases Y with
    | nil => rfl
    | cons b Ys =>
      rw [List.nil_append, List.cons_append] at he
      injection he with h1 _
      rw [h1] at hY
      exact absurd (List.mem_cons_self b Ys) hY
  | cons a Xs ih =>
    intro Y XS YS hX hY he
    cases Y with
    | nil =>
      rw [List.nil_append, List.cons_append] at he
      injection he with h1 _
      rw [← h1] at hX
      exact absurd (List.mem_cons_self a Xs) hX
    | cons b Ys =>
      rw [List.cons_append, List.cons_append] at he
      injection he with h1 h2
      rw [h1, ih Ys XS YS (fun hm => hX (List.mem_cons_of_mem _ hm))
        (fun hm => hY (List.mem_cons_of_mem _ hm)) h2]

theorem string_append_at_inj (A₁ d₁ A₂ d₂ : String)
    (h₁ : ¬ ('@' : Char) ∈ d₁.data) (h₂ : ¬ ('@' : Char) ∈ d₂.data)
    (he : A₁ ++ "@" ++ d₁ = A₂ ++ "@" ++ d₂) : d₁ = d₂ := by
  have hd := congrArg String.data he
  rw [String.data_append, String.data_append, String.data_append,
    String.data_append] at hd
  have hd2 := congrArg List.reverse hd
  rw [List.reverse_append, List.reverse_append, List.reverse_append,
    List.reverse_append] at hd2
  have hsep : ∀ (A B : List Char), B ++ (("@" : String).data.reverse ++ A) =
      B ++ '@' :: A := by
    intro A B
    rfl
  rw [hsep, hsep] at hd2
  have hrev := sep_prefix_inj '@' d₁.data.reverse d₂.data.reverse
    A₁.data.reverse A₂.data.reverse
    (fun hm => h₁ (List.mem_reverse.mp hm))
    (fun hm => h₂ (List.mem_reverse.mp hm)) hd2
  have := congrArg List.reverse hrev
  rw [List.reverse_reverse, List.reverse_reverse] at this
  exact String.ext this

/-- The start-up invariant established by `SIPStack.Start`: every directory
key was built by `registrarKey` from a normalised, `'@'`-free domain that is
either empty or registered as a managed domain. Under it, an unmanaged
Request-URI host can never have a directory entry. -/
theorem resolveDirectoryTarget_none_of_unmanaged
    (resolve : String → Option UDPAddr) (s : RoutingStack) (user host : String)
    (hdir : ∀ q ∈ s.directory, ∃ u d : String,
      q.1 = registrarKey u d ∧ goToLower d = d ∧ goTrimSpace d = d ∧
      ¬ ('@' : Char) ∈ d.data ∧
      (d = "" ∨ s.managedDomains.contains d = true))
    (hht : goTrimSpace host = host)
    (hha : ¬ ('@' : Char) ∈ host.data)
    (hm : s.managedDomains.contains (goToLower host) = false) :
    resolveDirectoryTarget resolve s user (goToLower host) = none := by
  unfold resolveDirectoryTarget
  by_cases hu : user = "" ∨ goToLower host = ""
  · rw [if_pos hu]
  · rw [if_neg hu]
    cases hf : List.find? (fun p => p.1 == registrarKey user (goToLower host))
        s.directory with
    | none => rfl
    | some q =>
      exfalso
      have hqmem := List.mem_of_find?_eq_some hf
      have hqkey : q.1 = registrarKey user (goToLower host) := by
        have h2 := List.find?_some hf
        simpa using h2
      obtain ⟨u2, d2, hk2, hld2, htd2, hat2, hcase2⟩ := hdir q hqmem
      have hnorm1 : registrarKey u2 d2 =
          goToLower (goTrimSpace u2) ++ "@" ++ d2 := by
        unfold registrarKey
        rw [htd2, hld2]
      have hlhtrim : goTrimSpace (goToLower host) = goToLower host := by
        rw [goTrimSpace_goToLower, hht]
      have hnorm2 : registrarKey user (goToLower host) =
          goToLower (goTrimSpace user) ++ "@" ++ goToLower host := by
        unfold registrarKey
        rw [hlhtrim, goToLower_idem]
      have hkeyeq : goToLower (goTrimSpace u2) ++ "@" ++ d2 =
          goToLower (goTrimSpace user) ++ "@" ++ goToLower host := by
        rw [← hnorm1, ← hnorm2, ← hk2, hqkey]
      have hlha : ¬ ('@' : Char) ∈ (goToLower host).data :=
        goToLower_at_free host hha
      have hd2 : d2 = goToLower host :=
        string_append_at_inj _ _ _ _ hat2 hlha hkeyeq
      rcases hcase2 with hc | hc
      · exact hu (Or.inr (by rw [← hd2, hc]))
      · rw [hd2] at hc
        rw [hm] at hc
        exact absurd hc (by simp)

/-- C9: `selectUpstreamTarget` resolves the destination in the
specification's order — registrar bindings for locally managed domains, then
the directory entry for user@domain, then direct resolution of host:port,
then the configured static default upstream, else failure — given the
start-up invariant of `SIPStack.Start` that every directory key is built by
`registrarKey` from a normalised domain that is managed (or empty). -/
theorem selectUpstreamTarget_spec_order (resolve : String → Option UDPAddr)
    (now : Int) (s : RoutingStack) (msg : Message)
    (hdir : ∀ q ∈ s.directory, ∃ u d : String,
      q.1 = registrarKey u d ∧ goToLower d = d ∧ goTrimSpace d = d ∧
      ¬ ('@' : Char) ∈ d.data ∧
      (d = "" ∨ s.managedDomains.contains d = true)) :
    selectUpstreamTarget resolve now s msg =
      specOrderUpstreamTarget resolve now s msg := by
  unfold selectUpstreamTarget specOrderUpstreamTarget
  by_cases hreq : msg.isRequest = true
  · rw [if_neg (by simp [hreq]), if_neg (by simp [hreq])]
    cases hp : parseSIPURI msg.RequestURI with
    | none => rfl
    | some t =>
      obtain ⟨user, host, port⟩ := t
      obtain ⟨hht, hha⟩ := parseSIPURI_host_ok msg.RequestURI user host port hp
      dsimp only
      by_cases hm : s.managedDomains.contains (goToLower host) = true
      · rw [if_pos hm, if_pos hm]
        cases hr : resolveRegistrarTarget resolve now s user (goToLower host) with
        | some target => simp
        | none =>
          cases hd : resolveDirectoryTarget resolve s user (goToLower host) with
          | some target => simp
          | none =>
            simp only [Option.none_orElse]
            by_cases hh : host = ""
            · simp [hh]
            · rw [if_pos (by simp [hh]), if_pos (by simp [hh])]
              cases hres : resolve (joinHostPort host port) with
              | some addr => simp
              | none => simp
      · have hmf : s.managedDomains.contains (goToLower host) = false := by
          simpa using hm
        have hd := resolveDirectoryTarget_none_of_unmanaged resolve s user host
          hdir hht hha hmf
        rw [if_neg hm, if_neg hm, hd]
        simp only [Option.none_orElse]
        by_cases hh : host = ""
        · simp [hh]
        · rw [if_pos (by simp [hh]), if_pos (by simp [hh])]
          cases hres : resolve (joinHostPort host port) with
          | some addr => simp
          | none => simp
  · rw [if_pos (by simp [hreq]), if_pos (by simp [hreq])]

/-- Witness for C9 at `c9Stack`, whose directory holds an entry for bob:
the code order equals the spec order for a registrar-resolved request
(alice) and for a directory-resolved request (bob), and the concrete
results come from the registrar binding and the directory contact. -/
theorem selectUpstreamTarget_spec_order_witness :
    (selectUpstreamTarget c9Resolve 100 c9Stack c9Msg =
       specOrderUpstreamTarget c9Resolve 100 c9Stack c9Msg ∧
     selectUpstreamTarget c9Resolve 100 c9Stack c9MsgB =
       specOrderUpstreamTarget c9Resolve 100 c9Stack c9MsgB) ∧
    selectUpstreamTarget c9Resolve 100 c9Stack c9Msg =
      some "udp:1.2.3.4:5070" ∧
    selectUpstreamTarget c9Resolve 100 c9Stack c9MsgB =
      some "udp:5.6.7.8:5080" :=
  ⟨⟨selectUpstreamTarget_spec_order c9Resolve 100 c9Stack c9Msg
      (by intro q hq
          rw [List.mem_singleton.mp hq]
          exact ⟨"bob", "example.com", by decide, by decide, by decide,
            by decide, Or.inr (by decide)⟩),
    selectUpstreamTarget_spec_order c9Resolve 100 c9Stack c9MsgB
      (by intro q hq
          rw [List.mem_singleton.mp hq]
          exact ⟨"bob", "example.com", by decide, by decide, by decide,
            by decide, Or.inr (by decide)⟩)⟩,
   by rfl, by rfl⟩
